import Mathlib

/-! Verification of the retrieval-and-decision pipeline of the
Intent-Driven-Retrieval-Workflow-Decision-System repository.

Shallow embedding of the Python sources:
  * `services/executor/workflow_engine.py`   → namespace `WorkflowEngine`
  * `services/orchestrator/decider.py`       → namespace `Decider`
  * `services/orchestrator/router.py`        → namespace `IntentRouter`
  * `services/retrieval/doc_retriever.py`    → namespace `DocRetriever`
  * `services/retrieval/result_retriever.py` → namespace `ResultRetriever`
  * `services/retrieval/workflow_retriever.py` → namespace `WorkflowRetriever`
  * `services/orchestrator/orchestrator.py`  → namespace `Orchestrator`

Modelling conventions: Python floats are modelled as exact rationals `ℚ`
(written with the reduced-fraction constructor `qv` so that all arithmetic
is kernel-computable); Python `None`-able values as `Option`; Python
truthiness of strings as `strTruthy`; exceptions of external backends as
`Except String`; the two LLM backends as explicit oracles listing the
response of each attempt; `datetime` timestamps as integers (seconds).
JSON dictionaries are association lists that keep insertion order, exactly
like Python 3.7+ dicts.
-/

/-- Reduced rational literal: `qv n d` is `n / d`, with the side conditions
discharged by `decide` so that the resulting `ℚ` is a plain structure
literal and every later comparison on it is kernel-computable. -/
def qv (n : Int) (d : Nat) (h1 : d ≠ 0 := by decide)
    (h2 : n.natAbs.Coprime d := by decide) : ℚ := ⟨n, d, h1, h2⟩

/-- Python string truthiness: `None` and `""` are falsy, everything else truthy. -/
def strTruthy : Option String → Bool
  | none => false
  | some s => s ≠ ""

/-- Code-point lexicographic strict order on character lists, the order
Python uses to compare `str` values (e.g. in `sorted`/`sort_keys`). -/
def clLt : List Char → List Char → Bool
  | [], [] => false
  | [], _ :: _ => true
  | _ :: _, [] => false
  | a :: as, b :: bs =>
    if a.toNat < b.toNat then true
    else if b.toNat < a.toNat then false
    else clLt as bs

/-- Python `<` on strings (code-point lexicographic). -/
def strLtB (a b : String) : Bool := clLt a.data b.data

/-- Python `<=` on strings, defined from the strict order. -/
def strLeB (a b : String) : Bool := !(strLtB b a)

/-- JSON values, as produced by `json.loads` / consumed by `json.dumps`.
Numbers are restricted to integers (the only numbers the embedded call
sites serialize). Objects are insertion-ordered association lists, like
Python dicts. -/
inductive JValue where
  | null : JValue
  | bool (b : Bool) : JValue
  | num (n : Int) : JValue
  | str (s : String) : JValue
  | arr (items : List JValue) : JValue
  | obj (fields : List (String × JValue)) : JValue

/-- A JSON object body (a Python dict). -/
abbrev JObj := List (String × JValue)

/-- Lower-case hex digit, as used by Python `\uXXXX` escapes and by
`hashlib.hexdigest`. -/
def hexDigit (n : Nat) : Char :=
  if n < 10 then Char.ofNat (48 + n) else Char.ofNat (87 + n)

/-- Four-digit lower-case hex rendering of a code unit, for `\uXXXX`. -/
def hex4 (n : Nat) : String :=
  String.mk [hexDigit (n / 4096 % 16), hexDigit (n / 256 % 16),
             hexDigit (n / 16 % 16), hexDigit (n % 16)]

/-- Escape one character the way `json.dumps` (default `ensure_ascii=True`)
does: the two mandatory escapes, the short control escapes, `\uXXXX` for
other control characters and for everything non-ASCII (with surrogate
pairs above the BMP), and the character itself otherwise. -/
def escChar (c : Char) : String :=
  let n := c.toNat
  if c = '"' then "\\\""
  else if c = '\\' then "\\\\"
  else if c = '\n' then "\\n"
  else if c = '\t' then "\\t"
  else if c = '\r' then "\\r"
  else if n = 8 then "\\b"
  else if n = 12 then "\\f"
  else if n < 32 ∨ n > 126 then
    if n < 65536 then "\\u" ++ hex4 n
    else
      let m := n - 65536
      "\\u" ++ hex4 (55296 + m / 1024) ++ "\\u" ++ hex4 (56320 + m % 1024)
  else String.singleton c

/-- Serialize a string literal as `json.dumps` does. -/
def dumpString (s : String) : String :=
  "\"" ++ String.join (s.data.map escChar) ++ "\""

/-- Join with the default `json.dumps` item separator. -/
def joinComma (items : List String) : String :=
  String.intercalate ", " items

/-- Key order used by `sort_keys=True`: compare rendered fields by their
key with the Python string order. -/
def keyLe (p q : String × String) : Prop := strLeB p.1 q.1 = true

instance : DecidableRel keyLe := fun p q => inferInstanceAs (Decidable (_ = true))

mutual

/-- The body of `json.dumps(v, sort_keys=True)`: canonical serialization
with the keys of every object sorted by the Python string order, and the
default separators. Object fields are rendered first and then sorted by
key, which yields the same text as sorting first (rendering is
field-wise). -/
def dumps : JValue → String
  | .null => "null"
  | .bool true => "true"
  | .bool false => "false"
  | .num n => toString n
  | .str s => dumpString s
  | .arr items => "[" ++ joinComma (dumpsList items) ++ "]"
  | .obj fields =>
    let rendered := dumpsFields fields
    let srt := List.insertionSort keyLe rendered
    "\x7b" ++ joinComma (srt.map (fun p => dumpString p.1 ++ ": " ++ p.2)) ++ "\x7d"

/-- Serialize each element of a JSON array. -/
def dumpsList : List JValue → List String
  | [] => []
  | v :: vs => dumps v :: dumpsList vs

/-- Render each field of a JSON object to `(key, serialized value)`. -/
def dumpsFields : List (String × JValue) → List (String × String)
  | [] => []
  | (k, v) :: fs => (k, dumps v) :: dumpsFields fs

end

/-- UTF-8 encoding of one code point, as `str.encode()` produces. -/
def utf8Cp (n : Nat) : List Nat :=
  if n < 128 then [n]
  else if n < 2048 then [192 + n / 64, 128 + n % 64]
  else if n < 65536 then [224 + n / 4096, 128 + n / 64 % 64, 128 + n % 64]
  else [240 + n / 262144, 128 + n / 4096 % 64, 128 + n / 64 % 64, 128 + n % 64]

/-- UTF-8 encoding of a string as a byte list (Python `.encode()`). -/
def utf8Bytes (s : String) : List Nat :=
  (s.data.map (fun c => utf8Cp c.toNat)).flatten

/-- SHA-256 right rotation of a 32-bit word (words are `Nat` values below
`2 ^ 32`; all arithmetic is taken `% 2 ^ 32` where it can overflow). -/
def rotr32 (x k : Nat) : Nat := (x / 2 ^ k + x % 2 ^ k * 2 ^ (32 - k)) % 2 ^ 32

/-- Bitwise complement on 32-bit words. -/
def not32 (x : Nat) : Nat := 2 ^ 32 - 1 - x

/-- SHA-256 Ch function. -/
def shaCh (x y z : Nat) : Nat := Nat.xor (Nat.land x y) (Nat.land (not32 x) z)

/-- SHA-256 Maj function. -/
def shaMaj (x y z : Nat) : Nat :=
  Nat.xor (Nat.xor (Nat.land x y) (Nat.land x z)) (Nat.land y z)

/-- SHA-256 big Sigma0. -/
def bsig0 (x : Nat) : Nat := Nat.xor (Nat.xor (rotr32 x 2) (rotr32 x 13)) (rotr32 x 22)

/-- SHA-256 big Sigma1. -/
def bsig1 (x : Nat) : Nat := Nat.xor (Nat.xor (rotr32 x 6) (rotr32 x 11)) (rotr32 x 25)

/-- SHA-256 small sigma0. -/
def ssig0 (x : Nat) : Nat := Nat.xor (Nat.xor (rotr32 x 7) (rotr32 x 18)) (x / 2 ^ 3)

/-- SHA-256 small sigma1. -/
def ssig1 (x : Nat) : Nat := Nat.xor (Nat.xor (rotr32 x 17) (rotr32 x 19)) (x / 2 ^ 10)

/-- The 64 SHA-256 round constants. -/
def shaK : List Nat :=
  [1116352408, 1899447441, 3049323471, 3921009573, 961987163, 1508970993,
   2453635748, 2870763221, 3624381080, 310598401, 607225278, 1426881987,
   1925078388, 2162078206, 2614888103, 3248222580, 3835390401, 4022224774,
   264347078, 604807628, 770255983, 1249150122, 1555081692, 1996064986,
   2554220882, 2821834349, 2952996808, 3210313671, 3336571891, 3584528711,
   113926993, 338241895, 666307205, 773529912, 1294757372, 1396182291,
   1695183700, 1986661051, 2177026350, 2456956037, 2730485921, 2820302411,
   3259730800, 3345764771, 3516065817, 3600352804, 4094571909, 275423344,
   430227734, 506948616, 659060556, 883997877, 958139571, 1322822218,
   1537002063, 1747873779, 1955562222, 2024104815, 2227730452, 2361852424,
   2428436474, 2756734187, 3204031479, 3329325298]

/-- The SHA-256 initial hash value. -/
def shaH0 : List Nat :=
  [1779033703, 3144134277, 1013904242, 2773480762,
   1359893119, 2600822924, 528734635, 1541459225]

/-- Big-endian byte rendering of `n` on `k` bytes. -/
def bytesBE (k n : Nat) : List Nat :=
  (List.range k).map (fun i => n / 2 ^ (8 * (k - 1 - i)) % 256)

/-- SHA-256 message padding: `0x80`, zeros up to 56 mod 64, then the
64-bit big-endian bit length. -/
def shaPad (msg : List Nat) : List Nat :=
  let padZeros := (55 + 64 - msg.length % 64) % 64
  msg ++ [0x80] ++ List.replicate padZeros 0 ++ bytesBE 8 (msg.length * 8)

/-- Helper for `blocks64`: groups the bytes 64 at a time (structural
recursion, so that the kernel can evaluate digests). -/
def blocks64Aux : List Nat → List Nat → List (List Nat)
  | [], cur => if cur.isEmpty then [] else [cur.reverse]
  | b :: bs, cur =>
    if cur.length = 63 then (b :: cur).reverse :: blocks64Aux bs []
    else blocks64Aux bs (b :: cur)

/-- Split a byte list into 64-byte blocks. -/
def blocks64 (l : List Nat) : List (List Nat) := blocks64Aux l []

/-- Pack a 64-byte block into sixteen 32-bit big-endian words. -/
def words16 : List Nat → List Nat
  | b0 :: b1 :: b2 :: b3 :: rest =>
    (b0 * 2 ^ 24 + b1 * 2 ^ 16 + b2 * 2 ^ 8 + b3) :: words16 rest
  | _ => []

/-- One message-schedule extension step: appends word `t` from words
`t-2`, `t-7`, `t-15`, `t-16`. -/
def scheduleStep (w : List Nat) : List Nat :=
  let t := w.length
  w ++ [(ssig1 (w.getD (t - 2) 0) + w.getD (t - 7) 0 +
         ssig0 (w.getD (t - 15) 0) + w.getD (t - 16) 0) % 2 ^ 32]

/-- The full 64-word message schedule of a block. -/
def schedule (block : List Nat) : List Nat := scheduleStep^[48] (words16 block)

/-- SHA-256 working state (a..h). -/
structure ShaState where
  a : Nat
  b : Nat
  c : Nat
  d : Nat
  e : Nat
  f : Nat
  g : Nat
  hh : Nat

/-- One SHA-256 compression round with round constant `k` and schedule
word `w`. -/
def shaRound (st : ShaState) (kw : Nat × Nat) : ShaState :=
  let t1 := (st.hh + bsig1 st.e + shaCh st.e st.f st.g + kw.1 + kw.2) % 2 ^ 32
  let t2 := (bsig0 st.a + shaMaj st.a st.b st.c) % 2 ^ 32
  { a := (t1 + t2) % 2 ^ 32, b := st.a, c := st.b, d := st.c,
    e := (st.d + t1) % 2 ^ 32, f := st.e, g := st.f, hh := st.g }

/-- Compress one 64-byte block into the running hash (eight words). -/
def shaCompress (hs : List Nat) (block : List Nat) : List Nat :=
  let init : ShaState :=
    { a := hs.getD 0 0, b := hs.getD 1 0, c := hs.getD 2 0, d := hs.getD 3 0,
      e := hs.getD 4 0, f := hs.getD 5 0, g := hs.getD 6 0, hh := hs.getD 7 0 }
  let fin := (shaK.zip (schedule block)).foldl shaRound init
  [(hs.getD 0 0 + fin.a) % 2 ^ 32, (hs.getD 1 0 + fin.b) % 2 ^ 32,
   (hs.getD 2 0 + fin.c) % 2 ^ 32, (hs.getD 3 0 + fin.d) % 2 ^ 32,
   (hs.getD 4 0 + fin.e) % 2 ^ 32, (hs.getD 5 0 + fin.f) % 2 ^ 32,
   (hs.getD 6 0 + fin.g) % 2 ^ 32, (hs.getD 7 0 + fin.hh) % 2 ^ 32]

/-- Eight-hex-digit rendering of a 32-bit word. -/
def hex8 (n : Nat) : String := hex4 (n / 65536) ++ hex4 (n % 65536)

/-- SHA-256 of a byte list, as a lower-case hex digest (Python
`hashlib.sha256(b).hexdigest()`). -/
def sha256Hex (msg : List Nat) : String :=
  String.join (((blocks64 (shaPad msg)).foldl shaCompress shaH0).map hex8)

/-- Optional string to JSON (`None` serializes as `null`). -/
def optStr : Option String → JValue
  | none => JValue.null
  | some s => JValue.str s

namespace WorkflowEngine

/-- The dict `{"workflow_id": ..., "inputs": ..., "tenant_id": ...,
"user_id": ...}` that `WorkflowEngine._generate_idempotency_key`
normalizes. -/
def keyPayload (workflow_id : String) (inputs : JObj)
    (tenant_id user_id : Option String) : JValue :=
  JValue.obj [("workflow_id", JValue.str workflow_id),
              ("inputs", JValue.obj inputs),
              ("tenant_id", optStr tenant_id),
              ("user_id", optStr user_id)]

/-- Embeds `WorkflowEngine._generate_idempotency_key`: SHA-256 hex digest of the
canonical (sorted-key) JSON serialization of the payload. -/
def generate_idempotency_key (workflow_id : String) (inputs : JObj)
    (tenant_id user_id : Option String) : String :=
  sha256Hex (utf8Bytes (dumps (keyPayload workflow_id inputs tenant_id user_id)))

end WorkflowEngine

/-- Embeds `config.constants.ResourceType` (string constants in the source). -/
inductive RType where
  | DOC
  | WORKFLOW
  | TOOL
  | RESULT
  | STRUCTURED
deriving DecidableEq, Repr

/-- Embeds `config.constants.ActionType` (string constants in the source). -/
inductive AType where
  | RETURN_RESULT
  | EXECUTE_WORKFLOW
  | ASK_CLARIFY
  | FALLBACK
deriving DecidableEq, Repr

/-- The `scores` sub-dict of a formatted candidate. -/
structure Scores where
  semantic : ℚ := 0
  keyword : ℚ := 0
  freshness : ℚ := 0
  policy : ℚ := 0
  total : ℚ := 0
deriving DecidableEq, Repr

/-- The `derived_from` sub-dict of a RESULT record. -/
structure DerivedFrom where
  resource_id : String
  run_id : String
  inputs_hash : String
deriving DecidableEq, Repr

/-- The `subject_keys` sub-dict of a RESULT record; each field is
`none` when the corresponding dict key is absent.  `time_range_present`
records only presence because `_match_subject_keys` never reads the
value. -/
structure SubjectKeys where
  user_id : Option String := none
  entity_ids : Option (List String) := none
  time_range_present : Bool := false
deriving DecidableEq, Repr

/-- The `metadata` sub-dict of a formatted candidate: the union of the
retriever-specific fields.  `fresh_until` and `updated_at` are modelled
as integer timestamps (the source serializes them in ISO form and parses
them back; that round trip is abstracted away). -/
structure CandMeta where
  tags : List String := []
  version : String := ""
  updated_at : Option Int := none
  chunk_id : Option String := none
  capabilities : List String := []
  fresh_until : Option Int := none
  derived_from : Option DerivedFrom := none
  subject_keys : Option SubjectKeys := none
deriving DecidableEq, Repr

/-- A formatted candidate, the uniform dict every retriever returns and
the decider consumes. -/
structure Candidate where
  resource_id : String
  resource_type : RType
  title : String := ""
  snippet : String := ""
  scores : Scores := {}
  metadata : CandMeta := {}
deriving DecidableEq, Repr

namespace Decider

/-- The `selected` sub-dict of an action.  `resource_id = none` models
JSON `null` (a raw model output may also carry the empty string, which
Python treats as falsy). -/
structure Selected where
  resource_id : Option String := none
  resource_type : Option RType := none
  confidence : ℚ := 0
deriving DecidableEq, Repr

/-- The `reason` sub-dict of an action. -/
structure Reason where
  why_best_fit : List String := []
  tradeoffs : List String := []
deriving DecidableEq, Repr

/-- The `execution` sub-dict of an action. -/
structure Execution where
  required : Bool := false
  executor_resource_id : Option String := none
  input : List (String × String) := []
  idempotency_key : Option String := none
deriving DecidableEq, Repr

/-- The `clarify` sub-dict of an action. -/
structure Clarify where
  required : Bool := false
  questions : List String := []
deriving DecidableEq, Repr

/-- A raw decision object as parsed from the model's JSON: each
top-level field is `none` when the key is missing, which is what
`_validate_action`'s required-field loop checks. -/
structure RawAction where
  action_type : Option AType := none
  selected : Option Selected := none
  reason : Option Reason := none
  execution : Option Execution := none
  clarify : Option Clarify := none
deriving DecidableEq, Repr

/-- Build a fully-populated action (every construction site in
`decider.py` fills all five fields). -/
def mkAction (ty : AType) (sel : Selected) (why : List String) : RawAction :=
  { action_type := some ty,
    selected := some sel,
    reason := some { why_best_fit := why, tradeoffs := [] },
    execution := some { required := false, executor_resource_id := none,
                        input := [], idempotency_key := none },
    clarify := some { required := false, questions := [] } }

/-- The predicate of hard rule 1 in `Decider._apply_hard_rules`: a RESULT
candidate with `total ≥ 0.7` whose `fresh_until` parses and lies strictly
in the future.  Candidates whose `fresh_until` is missing, falsy or
unparseable are skipped (the `try/except: pass`), exactly like candidates
that fail the threshold. -/
def freshResultB (now : Int) (c : Candidate) : Bool :=
  c.resource_type = RType.RESULT && qv 7 10 ≤ c.scores.total &&
    (match c.metadata.fresh_until with
     | some t => now < t
     | none => false)

/-- The predicate of hard rule 2: a DOC candidate with `total ≥ 0.7`. -/
def highDocB (c : Candidate) : Bool :=
  c.resource_type = RType.DOC && qv 7 10 ≤ c.scores.total

/-- The action hard rule 1 returns for candidate `c`. -/
def freshResultAction (c : Candidate) : RawAction :=
  mkAction AType.RETURN_RESULT
    { resource_id := some c.resource_id, resource_type := some RType.RESULT,
      confidence := c.scores.total }
    ["已有新鲜结果", "分数 " ++ toString c.scores.total]

/-- The action hard rule 2 returns for candidate `c`. -/
def highDocAction (c : Candidate) : RawAction :=
  mkAction AType.RETURN_RESULT
    { resource_id := some c.resource_id, resource_type := some RType.DOC,
      confidence := c.scores.total }
    ["文档匹配度高", "分数 " ++ toString c.scores.total]

/-- Embeds `Decider._apply_hard_rules`: rule 1 scans for the first fresh
high-score RESULT, then rule 2 scans for the first high-score DOC;
`none` when neither fires. -/
def apply_hard_rules (now : Int) (candidates : List Candidate) : Option RawAction :=
  match candidates.find? (freshResultB now) with
  | some c => some (freshResultAction c)
  | none =>
    match candidates.find? highDocB with
    | some c => some (highDocAction c)
    | none => none

/-- Embeds `Decider._validate_action`: all five top-level fields present, and if
`selected.resource_id` is truthy (non-`None`, non-empty) it must be the
`resource_id` of some candidate. -/
def validate_action (action : RawAction) (candidates : List Candidate) : Bool :=
  action.action_type.isSome && action.selected.isSome && action.reason.isSome &&
    action.execution.isSome && action.clarify.isSome &&
    (let selected_id := action.selected.bind (·.resource_id)
     if strTruthy selected_id then
       (candidates.map (·.resource_id)).contains (selected_id.getD "")
     else true)

/-- Python `max(candidates, key=total)` over a nonempty list: keeps the
first element, replacing it only on a strictly greater key, so ties go to
the earliest element. -/
def pyMaxByTotal (c0 : Candidate) (rest : List Candidate) : Candidate :=
  rest.foldl (fun best c => if best.scores.total < c.scores.total then c else best) c0

/-- Embeds `Decider._fallback_decision`: `FALLBACK` with null selection on an
empty pool, else `RETURN_RESULT` selecting the highest-total candidate. -/
def fallback_decision : List Candidate → RawAction
  | [] =>
    mkAction AType.FALLBACK
      { resource_id := none, resource_type := none, confidence := 0 }
      ["无候选资源"]
  | c0 :: rest =>
    let best := pyMaxByTotal c0 rest
    mkAction AType.RETURN_RESULT
      { resource_id := some best.resource_id,
        resource_type := some best.resource_type,
        confidence := best.scores.total }
      ["分数最高"]

/-- One model response: `Except.error` models any exception on the
attempt (network failure or `json.loads` failure), `Except.ok` a parsed
JSON object. -/
abbrev ModelTry := Except Unit RawAction

/-- The retry loop of `Decider._llm_decide` over the (at most
`max_retries = 2`) model responses: a response that validates is
returned; an exception or invalid response moves to the next attempt,
and exhausting the attempts degrades to `_fallback_decision`. -/
def llm_decide (candidates : List Candidate) : List ModelTry → RawAction
  | [] => fallback_decision candidates
  | Except.error _ :: rest => llm_decide candidates rest
  | Except.ok action :: rest =>
    if validate_action action candidates then action
    else llm_decide candidates rest

/-- Embeds `Decider.decide`: hard rules first (a hard-rule hit is a non-empty
dict, hence truthy), otherwise the model-backed path with the given
oracle of responses. -/
def decide (now : Int) (candidates : List Candidate) (oracle : List ModelTry) : RawAction :=
  match apply_hard_rules now candidates with
  | some action => action
  | none => llm_decide candidates oracle

end Decider

namespace IntentRouter

/-- The `filters` sub-dict of a search-plan entry. -/
structure Filters where
  tags : List String := []
  resource_status : List String := []
  freshness_required : Bool := false
deriving DecidableEq, Repr

/-- One entry of `search_plan`. -/
structure SearchItem where
  target : Option String := none
  query : Option String := none
  filters : Filters := {}
  top_k : Int := 10
deriving DecidableEq, Repr

/-- The `intent` sub-dict of a plan; `name = none` models a missing
`"name"` key. -/
structure PlanIntent where
  name : Option String := none
  confidence : ℚ := 0
  entities : List String := []
deriving DecidableEq, Repr

/-- The `decision_goal` sub-dict of a plan. -/
structure DecisionGoal where
  primary : String := ""
  ranking_rules : List String := []
  must_return_single : Bool := true
deriving DecidableEq, Repr

/-- The `constraints` sub-dict of a plan. -/
structure Constraints where
  need_citations : Bool := true
  no_fabrication : Bool := true
  output_format : String := "steps"
deriving DecidableEq, Repr

/-- Decidable equality for `Except`, needed to derive it for raw plans. -/
instance instDecEqExcept {ε : Type u} {α : Type v} [DecidableEq ε] [DecidableEq α] :
    DecidableEq (Except ε α) := fun a b =>
  match a, b with
  | Except.error x, Except.error y =>
    if h : x = y then Decidable.isTrue (congrArg Except.error h)
    else Decidable.isFalse (fun he => h (Except.error.inj he))
  | Except.ok x, Except.ok y =>
    if h : x = y then Decidable.isTrue (congrArg Except.ok h)
    else Decidable.isFalse (fun he => h (Except.ok.inj he))
  | Except.error _, Except.ok _ => Decidable.isFalse (fun he => Except.noConfusion he)
  | Except.ok _, Except.error _ => Decidable.isFalse (fun he => Except.noConfusion he)

/-- A raw plan as parsed from the model's JSON.  Each top-level field is
`none` when the key is missing.  `search_plan`'s inner `Except` separates
a present non-list value (`error`, e.g. the model returned `true`) from a
present list, which is what the `isinstance(search_plan, list)` check in
`_validate_plan` distinguishes. -/
structure RawPlan where
  intent : Option PlanIntent := none
  needs_workflow : Option String := none
  search_plan : Option (Except Unit (List SearchItem)) := none
  decision_goal : Option DecisionGoal := none
  constraints : Option Constraints := none
deriving DecidableEq, Repr

/-- Embeds `IntentRouter._validate_plan`: the four required top-level keys are
present, `intent` has a `name`, and `search_plan` is a non-empty list. -/
def validate_plan (plan : RawPlan) : Bool :=
  plan.intent.isSome && plan.search_plan.isSome && plan.decision_goal.isSome &&
    plan.constraints.isSome &&
    (match plan.intent with
     | some i => i.name.isSome
     | none => false) &&
    (match plan.search_plan with
     | some (Except.ok l) => decide (0 < l.length)
     | _ => false)

/-- Embeds `IntentRouter._default_plan`: the deterministic degraded plan built
from the raw user message. -/
def default_plan (user_message : String) : RawPlan :=
  { intent := some { name := some "OTHER", confidence := qv 1 2, entities := [] },
    needs_workflow := some "unknown",
    search_plan := some (Except.ok
      [{ target := some "DOC", query := some user_message,
         filters := { tags := [], resource_status := ["active"],
                      freshness_required := false },
         top_k := 10 },
       { target := some "RESULT", query := some user_message,
         filters := { tags := [], resource_status := ["active"],
                      freshness_required := false },
         top_k := 10 }]),
    decision_goal := some { primary := "best_fit",
                            ranking_rules := ["correctness", "freshness", "coverage"],
                            must_return_single := true },
    constraints := some { need_citations := true, no_fabrication := true,
                          output_format := "steps" } }

/-- One classification response: `Except.error` models any exception on
the attempt (`json.JSONDecodeError` or any other), `Except.ok` a parsed
JSON object. -/
abbrev RouteTry := Except Unit RawPlan

/-- The retry loop of `IntentRouter.route` over the (at most
`max_retries = 2`) classification responses: a response passing
`_validate_plan` is returned as-is; an exception or invalid response
moves to the next attempt; exhausting the attempts returns
`_default_plan`. -/
def route (user_message : String) : List RouteTry → RawPlan
  | [] => default_plan user_message
  | Except.error _ :: rest => route user_message rest
  | Except.ok plan :: rest =>
    if validate_plan plan then plan
    else route user_message rest

end IntentRouter

/-- A resource row as returned by `ResourceService.get_resource`
(attribute access in `doc_retriever.py` / `result_retriever.py`, dict
access in `workflow_retriever.py`; both shapes carry these fields). -/
structure Resource where
  id : String := ""
  tenant_id : Option String := none
  title : String := ""
  status : String := ""
  tags : List String := []
  version : String := ""
  capabilities : List String := []
  when_to_use : Option String := none
  updated_at : Option Int := none
deriving DecidableEq, Repr

/-- The filter keys the retrievers read.  `resource_status = none` models
an absent `"resource_status"` key (the code tests key presence with
`in`); `freshness_required` is read with `.get(..., False)`. -/
structure RFilters where
  resource_status : Option (List String) := none
  freshness_required : Bool := false
deriving DecidableEq, Repr

/-- The status post-filter shared by the doc and workflow retrievers:
drop the candidate when a `resource_status` filter is present and the
resource's status is not listed. -/
def statusFilterOk (filters : Option RFilters) (r : Resource) : Bool :=
  match filters with
  | some f =>
    match f.resource_status with
    | some statuses => statuses.contains r.status
    | none => true
  | none => true

/-- One hit of `vector_store.search_doc_chunks`. -/
structure VecCand where
  chunk_id : Option String := none
  resource_id : Option String := none
  snippet : String := ""
  score : ℚ := 0
deriving DecidableEq, Repr

/-- One hit of `vector_store.search_resource_briefs`. -/
structure BriefCand where
  resource_id : Option String := none
  title : String := ""
  snippet : String := ""
  score : ℚ := 0
deriving DecidableEq, Repr

/-- Word characters in the sense of `re.findall(r'\w+', …)`:
alphanumerics and underscore; all non-ASCII characters are treated as
word characters (an approximation of Python's Unicode `\w`). -/
def isWordChar (c : Char) : Bool := c.isAlphanum || c = '_' || 127 < c.toNat

/-- Helper for `wordTokens`: groups maximal runs of word characters. -/
def wordTokensAux : List Char → List Char → List String
  | [], cur => if cur.isEmpty then [] else [String.mk cur.reverse]
  | c :: cs, cur =>
    if isWordChar c then wordTokensAux cs (c :: cur)
    else if cur.isEmpty then wordTokensAux cs []
    else String.mk cur.reverse :: wordTokensAux cs []

/-- Embeds `re.findall(r'\w+', s)`: the maximal word-character runs of `s`. -/
def wordTokens (s : String) : List String := wordTokensAux s.data []

/-- Python `str.lower()` (ASCII case folding; the embedded call sites
only rely on ASCII). -/
def pyLower (s : String) : String := s.toLower

/-- Insert-or-overwrite into an insertion-ordered dict: a Python dict
assignment keeps the first-insertion position of an existing key and
appends a new key at the end. -/
def upsert {α : Type u} (m : List (String × α)) (k : String) (v : α) : List (String × α) :=
  if m.any (fun kv => kv.1 = k) then m.map (fun kv => if kv.1 = k then (k, v) else kv)
  else m ++ [(k, v)]

/-- Update the value at key `k` if present (a no-op otherwise), like a
guarded `d[k].field = …` mutation. -/
def updateAt {α : Type u} (m : List (String × α)) (k : String) (f : α → α) :
    List (String × α) :=
  m.map (fun kv => if kv.1 = k then (kv.1, f kv.2) else kv)

namespace DocRetriever

/-- A doc chunk as scored by `_merge_and_score` (the dict carrying
`semantic_score`, `keyword_score` and `total_score`). -/
structure Scored where
  cand : VecCand
  semantic_score : ℚ := 0
  keyword_score : ℚ := 0
  total_score : ℚ := 0
deriving DecidableEq, Repr

/-- Embeds `DocRetriever._keyword_search` keyword score of one candidate:
`|query_terms ∩ snippet_terms| / |query_terms|` on lower-cased word
tokens, with the divisor replaced by 1 when the query has no tokens. -/
def keywordScore (query : String) (snippet : String) : ℚ :=
  let query_terms := (wordTokens (pyLower query)).dedup
  let snippet_terms := (wordTokens (pyLower snippet)).dedup
  let matchCount := (query_terms.filter (fun t => snippet_terms.contains t)).length
  let total_terms := if query_terms.isEmpty then 1 else query_terms.length
  (matchCount : ℚ) / (total_terms : ℚ)

/-- Embeds `DocRetriever._keyword_search`: attaches a keyword score to every
vector candidate. -/
def keyword_search (query : String) (candidates : List VecCand) : List (VecCand × ℚ) :=
  candidates.map (fun c => (c, keywordScore query c.snippet))

/-- Candidate order used by every retriever's final sort
(`scored.sort(key=total, reverse=True)`): descending total score. -/
def scoredGe (a b : Scored) : Prop := b.total_score ≤ a.total_score

instance : DecidableRel scoredGe := fun a b => inferInstanceAs (Decidable (_ ≤ _))

instance : IsTotal Scored scoredGe := ⟨fun a b => le_total b.total_score a.total_score⟩

instance : IsTrans Scored scoredGe :=
  ⟨fun _ _ _ hab hbc => le_trans hbc hab⟩

/-- Embeds `DocRetriever._merge_and_score`: union the vector and keyword
signals keyed by `chunk_id` (Python dict semantics via `upsert` /
`updateAt`), weight the total as `0.5·semantic + 0.3·keyword`, sort by
descending total and keep `top_k`. -/
def merge_and_score (vector_candidates : List VecCand)
    (keyword_candidates : List (VecCand × ℚ)) (top_k : Nat) : List Scored :=
  let dict0 : List (String × Scored) :=
    vector_candidates.foldl
      (fun d c =>
        if strTruthy c.chunk_id then
          upsert d (c.chunk_id.getD "")
            { cand := c, semantic_score := c.score, keyword_score := 0 }
        else d) []
  let dict1 :=
    keyword_candidates.foldl
      (fun d ck =>
        if strTruthy ck.1.chunk_id then
          updateAt d (ck.1.chunk_id.getD "") (fun s => { s with keyword_score := ck.2 })
        else d) dict0
  let scored := dict1.map (fun kv =>
    { kv.2 with total_score := qv 1 2 * kv.2.semantic_score + qv 3 10 * kv.2.keyword_score })
  (List.insertionSort scoredGe scored).take top_k

/-- Embeds `DocRetriever._format_candidates`: look up each chunk's resource,
drop missing resources and status-filtered ones, and emit the uniform
candidate shape (`freshness = 0`, `policy = 1`). -/
def format_candidates (lookup : String → Option Resource) (candidates : List Scored)
    (filters : Option RFilters) : List Candidate :=
  candidates.filterMap (fun sc =>
    let rid := sc.cand.resource_id
    match (if strTruthy rid then lookup (rid.getD "") else none) with
    | none => none
    | some resource =>
      if statusFilterOk filters resource then
        some { resource_id := rid.getD "",
               resource_type := RType.DOC,
               title := resource.title,
               snippet := sc.cand.snippet,
               scores := { semantic := sc.semantic_score, keyword := sc.keyword_score,
                           freshness := 0, policy := 1, total := sc.total_score },
               metadata := { tags := resource.tags, version := resource.version,
                             updated_at := resource.updated_at,
                             chunk_id := sc.cand.chunk_id } }
      else none)

/-- Embeds `DocRetriever.retrieve`: embed the query, run the vector search
(both may fail, and the method has no handler, so a backend error
propagates), then keyword-score, merge and format.  The embedding and
search backends are oracles (`embed` is the outcome of
`embedding_service.embed_text`, `search` of
`vector_store.search_doc_chunks` on `2·top_k`). -/
def retrieve (embed : Except String Unit) (search : Except String (List VecCand))
    (lookup : String → Option Resource) (query : String) (filters : Option RFilters)
    (top_k : Nat) : Except String (List Candidate) := do
  let _ ← embed
  let vector_candidates ← search
  let keyword_candidates := keyword_search query vector_candidates
  let merged := merge_and_score vector_candidates keyword_candidates top_k
  pure (format_candidates lookup merged filters)

end DocRetriever

/-- Embeds `ResultService.compute_inputs_hash`: SHA-256 hex digest of
`json.dumps(inputs, sort_keys=True)`. -/
def compute_inputs_hash (inputs : JObj) : String :=
  sha256Hex (utf8Bytes (dumps (JValue.obj inputs)))

/-- A RESULT row as returned by `ResultService.get_result`. -/
structure ResultRec where
  result_id : String := ""
  resource_id : String := ""
  inputs_hash : String := ""
  fresh_until : Int := 0
  derived_from : Option DerivedFrom := none
  subject_keys : Option SubjectKeys := none
  summary : String := ""
deriving DecidableEq, Repr

/-- The retrieval context dict (`tenant_id`, `user_id`, optionally
`entity_ids`, `time_range` and `inputs`).  A `none` field conflates "key
absent" with "key present with value `None`" — the embedded readers
treat the two alike except for the subject-key presence tests, where
only genuinely present values are modelled. -/
structure RContext where
  tenant_id : Option String := none
  user_id : Option String := none
  entity_ids : Option (List String) := none
  time_range_present : Bool := false
  inputs : Option JObj := none

namespace ResultRetriever

/-- An element of the `db_results` list in `ResultRetriever.retrieve`:
the vector hit joined with its RESULT row, freshness score, and the
optional `inputs_match` / `subject_match_score` keys set by step 3. -/
structure DBResult where
  cand : BriefCand
  result : ResultRec
  freshness_score : ℚ := 0
  inputs_match : Option Bool := none
  subject_match_score : Option ℚ := none
  total_score : ℚ := 0
deriving DecidableEq, Repr

/-- Embeds `ResultRetriever._compute_freshness_score`: 0 when expired, else the
remaining lifetime as a fraction of 24h, capped at 1. -/
def compute_freshness_score (now fresh_until : Int) : ℚ :=
  if fresh_until < now then 0
  else min (((fresh_until - now : Int) : ℚ) / 86400) 1

/-- Embeds `ResultRetriever._match_subject_keys`: average the equality of each
subject-key dimension present on both sides (`time_range` contributes a
fixed half match); 0.5 when nothing is comparable. -/
def match_subject_keys (subject_keys : Option SubjectKeys) (ctx : RContext) : ℚ :=
  match subject_keys with
  | none => qv 1 2
  | some k =>
    let u : ℚ × Nat :=
      if k.user_id.isSome && ctx.user_id.isSome then
        (if k.user_id = ctx.user_id then 1 else 0, 1)
      else (0, 0)
    let e : ℚ × Nat :=
      if k.entity_ids.isSome && ctx.entity_ids.isSome then
        (if (k.entity_ids.getD []).any (fun x => (ctx.entity_ids.getD []).contains x)
         then 1 else 0, 1)
      else (0, 0)
    let t : ℚ × Nat :=
      if k.time_range_present && ctx.time_range_present then (qv 1 2, 1) else (0, 0)
    let total := u.2 + e.2 + t.2
    if 0 < total then (u.1 + e.1 + t.1) / (total : ℚ) else qv 1 2

/-- Step 2 of `ResultRetriever.retrieve`: join each vector hit with its
RESULT row (skipping falsy ids and missing rows), drop expired rows when
`freshness_required`, and attach the freshness score. -/
def dbResults (getResult : String → Option ResultRec) (now : Int)
    (freshness_required : Bool) (vector_candidates : List BriefCand) : List DBResult :=
  vector_candidates.filterMap (fun cand =>
    if strTruthy cand.resource_id then
      match getResult (cand.resource_id.getD "") with
      | none => none
      | some result =>
        if freshness_required && decide (result.fresh_until < now) then none
        else some { cand := cand, result := result,
                    freshness_score := compute_freshness_score now result.fresh_until }
    else none)

/-- Step 3 of `ResultRetriever.retrieve`: when the context carries a
truthy `inputs` dict, mark exact `inputs_hash` matches (subject score 1)
and score the others by `_match_subject_keys`; otherwise the keys stay
unset. -/
def markMatches (ctx : Option RContext) (db_results : List DBResult) : List DBResult :=
  match ctx with
  | none => db_results
  | some c =>
    match c.inputs with
    | none => db_results
    | some [] => db_results
    | some inputs =>
      let inputs_hash := compute_inputs_hash inputs
      db_results.map (fun r =>
        if r.result.inputs_hash = inputs_hash then
          { r with inputs_match := some true, subject_match_score := some 1 }
        else
          { r with inputs_match := some false,
                   subject_match_score := some (match_subject_keys r.result.subject_keys c) })

/-- Descending total-score order on `DBResult`. -/
def dbGe (a b : DBResult) : Prop := b.total_score ≤ a.total_score

instance : DecidableRel dbGe := fun a b => inferInstanceAs (Decidable (_ ≤ _))

instance : IsTotal DBResult dbGe := ⟨fun a b => le_total b.total_score a.total_score⟩

instance : IsTrans DBResult dbGe := ⟨fun _ _ _ hab hbc => le_trans hbc hab⟩

/-- Embeds `ResultRetriever._merge_and_score`: weight
`0.3·semantic + 0.4·freshness + 0.1·subject + 0.2·inputs-flag` (missing
subject score defaults to 0.5, the inputs flag is 1.0 on an exact match
and 0.5 otherwise), sort by descending total and keep `top_k`. -/
def merge_and_score (candidates : List DBResult) (top_k : Nat) : List DBResult :=
  let scored := candidates.map (fun c =>
    let semantic := c.cand.score
    let freshness := c.freshness_score
    let subject_match := c.subject_match_score.getD (qv 1 2)
    let inputs_flag : ℚ := if c.inputs_match.getD false then 1 else qv 1 2
    { c with total_score := (qv 3 10 * semantic + qv 2 5 * freshness +
        qv 1 10 * subject_match + qv 1 5 * inputs_flag) })
  (List.insertionSort dbGe scored).take top_k

/-- Embeds `ResultRetriever._format_candidates`: look up the resource behind
each RESULT row (dropping misses) and emit the uniform candidate shape
(`keyword = 0`, `policy = 1`, metadata carrying `fresh_until`,
`derived_from` and `subject_keys`). -/
def format_candidates (lookup : String → Option Resource)
    (candidates : List DBResult) : List Candidate :=
  candidates.filterMap (fun c =>
    match lookup c.result.resource_id with
    | none => none
    | some resource =>
      some { resource_id := c.result.result_id,
             resource_type := RType.RESULT,
             title := resource.title,
             snippet := c.result.summary,
             scores := { semantic := c.cand.score, keyword := 0,
                         freshness := c.freshness_score, policy := 1,
                         total := c.total_score },
             metadata := { tags := resource.tags, version := resource.version,
                           fresh_until := some c.result.fresh_until,
                           derived_from := c.result.derived_from,
                           subject_keys := c.result.subject_keys } })

/-- Embeds `ResultRetriever.retrieve`: embed the query and search resource
briefs (both may fail, and the method has no handler, so a backend error
propagates), join with the RESULT store, apply freshness and
subject/inputs matching, merge, sort and format. -/
def retrieve (embed : Except String Unit) (search : Except String (List BriefCand))
    (getResult : String → Option ResultRec) (lookup : String → Option Resource)
    (now : Int) (query : String) (filters : Option RFilters) (top_k : Nat)
    (ctx : Option RContext) : Except String (List Candidate) := do
  let freshness_required := match filters with
    | some f => f.freshness_required
    | none => false
  let _ ← embed
  let vector_candidates ← search
  let db := dbResults getResult now freshness_required vector_candidates
  let marked := markMatches ctx db
  let merged := merge_and_score marked top_k
  pure (format_candidates lookup merged)

end ResultRetriever

/-- Python substring containment (`needle in hay` on `str`), on char
lists: some suffix of the haystack starts with the needle. -/
def listInfix [DecidableEq α] (needle : List α) : List α → Bool
  | [] => needle.isEmpty
  | a :: rest => needle.isPrefixOf (a :: rest) || listInfix needle rest

/-- Python `needle in hay` for strings. -/
def substrB (needle hay : String) : Bool := listInfix needle.data hay.data

/-- Python `str.split()`: maximal runs of non-whitespace characters. -/
def pySplitAux : List Char → List Char → List String
  | [], cur => if cur.isEmpty then [] else [String.mk cur.reverse]
  | c :: cs, cur =>
    if c.isWhitespace then
      if cur.isEmpty then pySplitAux cs []
      else String.mk cur.reverse :: pySplitAux cs []
    else pySplitAux cs (c :: cur)

/-- Python `str.split()` on a string. -/
def pySplit (s : String) : List String := pySplitAux s.data []

namespace WorkflowRetriever

/-- A workflow brief after `_keyword_match` / `_merge_and_score`: the
vector hit plus the semantic and keyword scores and (when the keyword
pass found it) the looked-up resource dict. -/
structure Merged where
  cand : BriefCand
  semantic_score : ℚ := 0
  keyword_score : ℚ := 0
  resource : Option Resource := none
  total_score : ℚ := 0
deriving DecidableEq, Repr

/-- The keyword score of `WorkflowRetriever._keyword_match` for one
resource: +0.5 when the lowered query is a substring of the title, +0.3
when some query term occurs in the joined capability text, +0.2 when
some query term occurs in the joined tag text, capped at 1. -/
def keywordScore (query : String) (resource : Resource) : ℚ :=
  let query_lower := pyLower query
  let query_terms := (pySplit query_lower).dedup
  let title_match := substrB query_lower (pyLower resource.title)
  let capabilities_text := pyLower (String.intercalate " " resource.capabilities)
  let tags_text := pyLower (String.intercalate " " resource.tags)
  let capabilities_match := query_terms.any (fun t => substrB t capabilities_text)
  let tags_match := query_terms.any (fun t => substrB t tags_text)
  let s0 : ℚ := 0
  let s1 := if title_match then s0 + qv 1 2 else s0
  let s2 := if capabilities_match then s1 + qv 3 10 else s1
  let s3 := if tags_match then s2 + qv 1 5 else s2
  min s3 1

/-- Embeds `WorkflowRetriever._keyword_match`: look up each hit's resource
(skipping falsy ids and misses; the per-request `resource_cache` is a
pure memo of `ResourceService.get_resource` and is modelled by `lookup`
itself) and attach the keyword score. -/
def keyword_match (query : String) (candidates : List BriefCand)
    (lookup : String → Option Resource) : List (BriefCand × ℚ × Resource) :=
  candidates.filterMap (fun cand =>
    if strTruthy cand.resource_id then
      match lookup (cand.resource_id.getD "") with
      | none => none
      | some resource => some (cand, keywordScore query resource, resource)
    else none)

/-- Descending total-score order on `Merged`. -/
def mergedGe (a b : Merged) : Prop := b.total_score ≤ a.total_score

instance : DecidableRel mergedGe := fun a b => inferInstanceAs (Decidable (_ ≤ _))

instance : IsTotal Merged mergedGe := ⟨fun a b => le_total b.total_score a.total_score⟩

instance : IsTrans Merged mergedGe := ⟨fun _ _ _ hab hbc => le_trans hbc hab⟩

/-- Embeds `WorkflowRetriever._merge_and_score`: union the vector and keyword
passes keyed by `resource_id` (dict semantics), weight the total as
`0.4·semantic + 0.3·keyword + 0.3·1.0` (the fixed policy-pass term),
sort by descending total and keep `top_k`. -/
def merge_and_score (vector_candidates : List BriefCand)
    (keyword_candidates : List (BriefCand × ℚ × Resource)) (top_k : Nat) : List Merged :=
  let dict0 : List (String × Merged) :=
    vector_candidates.foldl
      (fun d c =>
        if strTruthy c.resource_id then
          upsert d (c.resource_id.getD "")
            { cand := c, semantic_score := c.score, keyword_score := 0 }
        else d) []
  let dict1 :=
    keyword_candidates.foldl
      (fun d ckr =>
        if strTruthy ckr.1.resource_id then
          updateAt d (ckr.1.resource_id.getD "")
            (fun m => { m with keyword_score := ckr.2.1, resource := some ckr.2.2 })
        else d) dict0
  let scored := dict1.map (fun kv =>
    { kv.2 with total_score :=
        (qv 2 5 * kv.2.semantic_score + qv 3 10 * kv.2.keyword_score + qv 3 10 * 1) })
  (List.insertionSort mergedGe scored).take top_k

/-- The three drop conditions of
`WorkflowRetriever._format_candidates`, in source order: tenant
isolation (when both the request tenant and the resource tenant are
truthy and differ), the optional `resource_status` filter, and the
unconditional `deprecated`/`disabled` exclusion. -/
def keepResource (tenant_id : Option String) (filters : Option RFilters)
    (r : Resource) : Bool :=
  !(strTruthy tenant_id && strTruthy r.tenant_id && r.tenant_id ≠ tenant_id) &&
    statusFilterOk filters r &&
    !(r.status = "deprecated" || r.status = "disabled")

/-- Embeds `WorkflowRetriever._format_candidates`: drop entries without an
attached resource, apply `keepResource`, and emit the uniform candidate
shape (snippet `title. when_to_use`, `freshness = 0`, `policy = 1`). -/
def format_candidates (candidates : List Merged) (filters : Option RFilters)
    (tenant_id : Option String) : List Candidate :=
  candidates.filterMap (fun m =>
    match m.resource with
    | none => none
    | some resource =>
      if keepResource tenant_id filters resource then
        some { resource_id := resource.id,
               resource_type := RType.WORKFLOW,
               title := resource.title,
               snippet := resource.title ++ ". " ++ resource.when_to_use.getD "",
               scores := { semantic := m.semantic_score, keyword := m.keyword_score,
                           freshness := 0, policy := 1, total := m.total_score },
               metadata := { tags := resource.tags, version := resource.version,
                             capabilities := resource.capabilities,
                             updated_at := resource.updated_at } }
      else none)

/-- Embeds `WorkflowRetriever.retrieve`: embed the query and search workflow
briefs (both may fail, and the method has no handler, so a backend error
propagates), keyword-match against the registry, merge, sort and
format with tenant isolation. -/
def retrieve (embed : Except String Unit) (search : Except String (List BriefCand))
    (lookup : String → Option Resource) (query : String) (filters : Option RFilters)
    (top_k : Nat) (ctx : Option RContext) : Except String (List Candidate) := do
  let tenant_id := match ctx with
    | some c => c.tenant_id
    | none => none
  let _ ← embed
  let vector_candidates ← search
  let keyword_candidates := keyword_match query vector_candidates lookup
  let merged := merge_and_score vector_candidates keyword_candidates top_k
  pure (format_candidates merged filters tenant_id)

end WorkflowRetriever

/-- Python `repr`-style rendering of an optional string for the
`"Unknown step type: ..."` message (`None` when the key is absent). -/
def showPyOpt : Option String → String
  | none => "None"
  | some s => s

/-- Python truthiness of a JSON value. -/
def jTruthy : JValue → Bool
  | JValue.null => false
  | JValue.bool b => b
  | JValue.num n => n ≠ 0
  | JValue.str s => s ≠ ""
  | JValue.arr items => !items.isEmpty
  | JValue.obj fields => !fields.isEmpty

/-- Embeds `d.get(k, default)` on a JSON object. -/
def jGetD (fields : JObj) (k : String) (default : JValue) : JValue :=
  match fields.find? (fun kv => kv.1 = k) with
  | some kv => kv.2
  | none => default

namespace WorkflowEngine

/-- One workflow step as read by `_execute_steps` (a JSON dict accessed
with `.get`). -/
structure Step where
  stype : Option String := none
  tool_id : Option String := none
  args_template : JObj := []

/-- The `workflow_json` column of a workflow definition. -/
structure WorkflowJson where
  steps : List Step := []

/-- A workflow definition row as returned by
`WorkflowService.get_workflow`. -/
structure WorkflowDefR where
  workflow_id : String
  resource_id : String
  workflow_json : WorkflowJson := {}
  timeout_seconds : Option Int := none
  ttl_seconds : Option Int := none

/-- One entry of a run's `errors` list; `step = none` models the
`"unknown"` step marker of the outer exception handler. -/
structure ErrRec where
  step : Option Nat := none
  code : String := ""
  message : String := ""
deriving DecidableEq, Repr

/-- Embeds `WorkflowEngine._render_template` (the simplified source returns the
template unchanged). -/
def render_template (template : JObj) : JObj := template

/-- Embeds `WorkflowEngine._execute_tool`: renders the argument template and
returns the stubbed success payload.  The external tool adapter is a
`TODO` in the source, so invoking a tool step has no other effect; the
embedding's tool log (threaded separately) records each invocation. -/
def execute_tool (step : Step) : JValue :=
  JValue.obj [("tool_id", optStr step.tool_id),
              ("args", JValue.obj (render_template step.args_template)),
              ("result", JValue.obj [("status", JValue.str "success"),
                                     ("data", JValue.obj [])])]

/-- Embeds `WorkflowEngine._execute_condition` (stub: always true). -/
def execute_condition (_step : Step) : JValue :=
  JValue.obj [("result", JValue.bool true)]

/-- Embeds `WorkflowEngine._execute_transform` (stub: echoes outputs so far). -/
def execute_transform (outputs : JObj) : JValue :=
  JValue.obj [("result", JValue.obj outputs)]

/-- Embeds `WorkflowEngine._execute_retrieve` (stub). -/
def execute_retrieve : JValue := JValue.obj [("result", JValue.arr [])]

/-- Embeds `WorkflowEngine._execute_parallel` (stub). -/
def execute_parallel : JValue := JValue.obj [("results", JValue.arr [])]

/-- The step loop of `WorkflowEngine._execute_steps`: dispatch on the
step type, store each result under `step_i`, record unknown step types
as non-fatal `UNKNOWN_STEP_TYPE` errors, and stop after a `CONDITION`
step whose result is falsy.  Returns (outputs dict, errors, tool log). -/
def stepsLoop : List Step → Nat → JObj → List ErrRec → List (Option String) →
    JObj × List ErrRec × List (Option String)
  | [], _, outs, errs, tlog => (outs, errs, tlog)
  | s :: rest, i, outs, errs, tlog =>
    match s.stype with
    | some "TOOL" =>
      stepsLoop rest (i + 1) (upsert outs ("step_" ++ toString i) (execute_tool s))
        errs (tlog ++ [s.tool_id])
    | some "CONDITION" =>
      let res := execute_condition s
      let resFields := match res with
        | JValue.obj f => f
        | _ => []
      let outs1 := upsert outs ("step_" ++ toString i) res
      if jTruthy (jGetD resFields "result" (JValue.bool false)) then
        stepsLoop rest (i + 1) outs1 errs tlog
      else (outs1, errs, tlog)
    | some "TRANSFORM" =>
      stepsLoop rest (i + 1) (upsert outs ("step_" ++ toString i) (execute_transform outs))
        errs tlog
    | some "RETRIEVE" =>
      stepsLoop rest (i + 1) (upsert outs ("step_" ++ toString i) execute_retrieve) errs tlog
    | some "PARALLEL" =>
      stepsLoop rest (i + 1) (upsert outs ("step_" ++ toString i) execute_parallel) errs tlog
    | other =>
      stepsLoop rest (i + 1) outs
        (errs ++ [{ step := some i, code := "UNKNOWN_STEP_TYPE",
                    message := "Unknown step type: " ++ showPyOpt other }]) tlog

/-- The final merge of `_execute_steps`: dict-valued step outputs are
flattened into one dict (`final_outputs.update(value)`), other values
are stored under their `step_i` key. -/
def mergeOutputs (outs : JObj) : JObj :=
  outs.foldl
    (fun acc kv =>
      match kv.2 with
      | JValue.obj fields => fields.foldl (fun a f => upsert a f.1 f.2) acc
      | v => upsert acc kv.1 v) []

/-- Embeds `WorkflowEngine._execute_steps`.  The `timeout_seconds` argument is
accepted — mirroring the source signature — and, exactly like the
source body, never read. -/
def execute_steps (workflow_json : WorkflowJson) (inputs : JObj)
    (timeout_seconds : Int) : JObj × List ErrRec × List (Option String) :=
  let _ := inputs
  let _ := timeout_seconds
  let r := stepsLoop workflow_json.steps 0 [] [] []
  (mergeOutputs r.1, r.2.1, r.2.2)

/-- A `WorkflowRun` row as created by `WorkflowRunService.create_run`
and updated by `update_run_status`. -/
structure RunRecord where
  run_id : String
  workflow_id : String
  resource_id : String
  status : String
  inputs : JObj := []
  outputs : Option JObj := none
  errors : List ErrRec := []
  idempotency_key : String
  tenant_id : Option String := none
  user_id : Option String := none

/-- The RESULT row persisted by `WorkflowEngine._create_result` via
`ResultService.create_result`. -/
structure CreatedResult where
  result_id : String
  resource_id : String
  derived_from : DerivedFrom
  subject_keys : SubjectKeys
  inputs_hash : String
  fresh_until : Int
  summary : String
  payload : JObj

/-- The persistent state the engine touches: run rows, RESULT rows and
their resource entries, plus an instrumentation log of tool-step
invocations (one entry per executed `TOOL` step, across calls). -/
structure Store where
  runs : List RunRecord := []
  results : List CreatedResult := []
  resources : List Resource := []
  toolLog : List (Option String) := []

/-- Embeds `WorkflowEngine._check_idempotency`.  The source body is
`# TODO: 从数据库查询` followed by `return None`: it never consults the
run store. -/
def check_idempotency (_idempotency_key : String) (_tenant_id : Option String) :
    Option RunRecord := none

/-- Embeds `WorkflowRunService.update_run_status`: set status, outputs and
errors on the row with the given `run_id`. -/
def update_run_status (runs : List RunRecord) (run_id status : String)
    (outputs : Option JObj) (errors : List ErrRec) : List RunRecord :=
  runs.map (fun r =>
    if r.run_id = run_id then
      { r with status := status, outputs := outputs, errors := errors }
    else r)

/-- Embeds `WorkflowEngine._create_result`: persist a RESULT row (freshness
deadline `now + ttl`, where a falsy per-workflow `ttl_seconds` falls
back to the configured default) and its companion resource entry. -/
def create_result (wdef : WorkflowDefR) (run_id : String) (inputs outputs : JObj)
    (tenant_id user_id : Option String) (now default_ttl : Int) (st : Store) : Store :=
  let inputs_hash := compute_inputs_hash inputs
  let ttl_seconds := match wdef.ttl_seconds with
    | some t => if t = 0 then default_ttl else t
    | none => default_ttl
  let fresh_until := now + ttl_seconds
  let summary := "工作流 " ++ wdef.workflow_id ++ " 执行结果"
  let result_id := "res_result_" ++ run_id
  { st with
    results := st.results ++
      [{ result_id := result_id, resource_id := result_id,
         derived_from := { resource_id := wdef.resource_id, run_id := run_id,
                           inputs_hash := inputs_hash },
         subject_keys := { user_id := user_id, entity_ids := some [],
                           time_range_present := true },
         inputs_hash := inputs_hash, fresh_until := fresh_until,
         summary := summary, payload := outputs }],
    resources := st.resources ++
      [{ id := result_id, title := summary, capabilities := [],
         tags := ["execution_result"], version := "1.0.0", status := "active",
         tenant_id := tenant_id }] }

/-- The reply dict of `WorkflowEngine.execute`.  The idempotent-replay
branch of the source omits the `errors` key; it is modelled as `[]`
there. -/
structure ExecResp where
  run_id : String
  workflow_id : String
  status : String
  outputs : JObj := []
  errors : List ErrRec := []
  from_cache : Bool

/-- Embeds `WorkflowEngine.execute`.  `getWorkflow` stands for
`WorkflowService.get_workflow`; `run_id` is the freshly generated
timestamp-plus-uuid id of this call; a missing workflow raises
(`Except.error`, the `ValueError`).  The idempotency key is generated
from the four-tuple when the caller's key is falsy; the idempotency
check consults the stub `check_idempotency`; then a `running` row is
created, the steps run, the row is set to its terminal status, a RESULT
is materialized on success, and the reply carries `from_cache = false`. -/
def execute (getWorkflow : String → Option String → Option WorkflowDefR)
    (run_id : String) (now : Int) (default_ttl : Int) (workflow_id : String)
    (inputs : JObj) (tenant_id user_id : Option String)
    (idempotency_key : Option String) (st : Store) : Except String ExecResp × Store :=
  match getWorkflow workflow_id tenant_id with
  | none => (Except.error ("Workflow " ++ workflow_id ++ " not found"), st)
  | some wdef =>
    let key := if strTruthy idempotency_key then idempotency_key.getD ""
      else generate_idempotency_key workflow_id inputs tenant_id user_id
    let cached := match check_idempotency key tenant_id with
      | some existing => if existing.status = "success" then some existing else none
      | none => none
    match cached with
    | some existing =>
      (Except.ok { run_id := existing.run_id, workflow_id := workflow_id,
                   status := "success", outputs := existing.outputs.getD [],
                   from_cache := true }, st)
    | none =>
      let run0 : RunRecord :=
        { run_id := run_id, workflow_id := workflow_id,
          resource_id := wdef.resource_id, status := "running", inputs := inputs,
          idempotency_key := key, tenant_id := tenant_id, user_id := user_id }
      let st1 := { st with runs := st.runs ++ [run0] }
      let timeout := match wdef.timeout_seconds with
        | some t => if t = 0 then 30 else t
        | none => 30
      let r := execute_steps wdef.workflow_json inputs timeout
      let outputs := r.1
      let errors := r.2.1
      let status := if errors.isEmpty then "success"
        else if !outputs.isEmpty then "partial" else "failed"
      let st2 := { st1 with
        runs := update_run_status st1.runs run_id status (some outputs) errors,
        toolLog := st1.toolLog ++ r.2.2 }
      let st3 := if status = "success" && !outputs.isEmpty then
          create_result wdef run_id inputs outputs tenant_id user_id now default_ttl st2
        else st2
      (Except.ok { run_id := run_id, workflow_id := workflow_id, status := status,
                   outputs := outputs, errors := errors, from_cache := false }, st3)

end WorkflowEngine

namespace Orchestrator

/-- An instrumentation record of one retriever invocation made by the
retrieval loop of `Orchestrator.process` (which retriever, with which
query). -/
structure RetCall where
  target : RType
  query : String
deriving DecidableEq, Repr

/-- One iteration of the retrieval loop in `Orchestrator.process`: a
`DOC` / `WORKFLOW` / `RESULT` target invokes the matching retriever and
extends the pool; any other target (`STRUCTURED`, an unknown string, or
a missing key) matches no branch — nothing is invoked, nothing is
added, nothing is recorded. -/
def planStep (docR wfR resR : String → IntentRouter.Filters → Int → List Candidate)
    (user_message : String) (acc : List Candidate × List RetCall)
    (item : IntentRouter.SearchItem) : List Candidate × List RetCall :=
  let query := item.query.getD user_message
  match item.target with
  | some "DOC" =>
    (acc.1 ++ docR query item.filters item.top_k, acc.2 ++ [⟨RType.DOC, query⟩])
  | some "WORKFLOW" =>
    (acc.1 ++ wfR query item.filters item.top_k, acc.2 ++ [⟨RType.WORKFLOW, query⟩])
  | some "RESULT" =>
    (acc.1 ++ resR query item.filters item.top_k, acc.2 ++ [⟨RType.RESULT, query⟩])
  | _ => acc

/-- The full retrieval loop of `Orchestrator.process` over the plan's
`search_plan` entries, instrumented with the retriever-invocation log. -/
def runPlan (docR wfR resR : String → IntentRouter.Filters → Int → List Candidate)
    (user_message : String) (items : List IntentRouter.SearchItem) :
    List Candidate × List RetCall :=
  items.foldl (planStep docR wfR resR user_message) ([], [])

/-- The `meta` dict of the response of `Orchestrator.process`; the
success path has no `error` key (`none` here), the exception path sets
it to `str(e)`. -/
structure RespMeta where
  intent : Option String := none
  action_type : Option AType := none
  selected_resource_id : Option String := none
  run_id : Option String := none
  citations : List String := []
  error : Option String := none
deriving DecidableEq, Repr

/-- The response dict of `Orchestrator.process`. -/
structure ChatResult where
  session_id : String
  trace_id : String
  answer : String
  meta : RespMeta
deriving DecidableEq, Repr

/-- The data the successful pipeline branch of `Orchestrator.process`
packages into its response. -/
structure PipelineOk where
  answer : String
  intent : Option String := none
  action_type : Option AType := none
  selected_resource_id : Option String := none
  run_id : Option String := none
  citations : List String := []
deriving DecidableEq, Repr

/-- The response boundary of `Orchestrator.process`: the body runs under
one `try`, and the `except` arm logs the traceback and returns a
response whose `answer` is the fixed generic message and whose
`meta` carries `intent = "OTHER"`, `action_type = FALLBACK` and
`error = str(e)`. -/
def respond (session_id : Option String) (trace_id : String)
    (pipeline : Except String PipelineOk) : ChatResult :=
  match pipeline with
  | Except.ok d =>
    { session_id := session_id.getD "", trace_id := trace_id, answer := d.answer,
      meta := { intent := d.intent, action_type := d.action_type,
                selected_resource_id := d.selected_resource_id,
                run_id := d.run_id, citations := d.citations, error := none } }
  | Except.error e =>
    { session_id := session_id.getD "", trace_id := trace_id,
      answer := "处理时发生错误，请稍后重试。",
      meta := { intent := some "OTHER", action_type := some AType.FALLBACK,
                error := some e } }

end Orchestrator

/-- The candidate order every retriever's contract promises on its
output: descending `scores.total`. -/
def candGe (a b : Candidate) : Prop := b.scores.total ≤ a.scores.total

/-- The candidate list of a retriever reply, empty on a propagated
backend error (used to state order/length facts about the success
branch). -/
def okList : Except String (List Candidate) → List Candidate
  | Except.ok l => l
  | Except.error _ => []

/-- One decider model attempt that fails: an exception or an output
rejected by `_validate_action`. -/
def attemptFails (candidates : List Candidate) : Decider.ModelTry → Bool
  | Except.error _ => true
  | Except.ok action => !Decider.validate_action action candidates

/-- The (amended) injection-guard property of one decider output: the
selected resource id is JSON null, the empty string (falsy in Python, so
the source guard skips it), or the id of a supplied candidate. -/
def guardOk (candidates : List Candidate) (action : Decider.RawAction) : Bool :=
  match action.selected.bind (fun s => s.resource_id) with
  | none => true
  | some s => s == "" || (candidates.map (fun c => c.resource_id)).contains s

/-- One router classification attempt that fails: an exception or an
output rejected by `_validate_plan`. -/
def routeAttemptFails : IntentRouter.RouteTry → Bool
  | Except.error _ => true
  | Except.ok plan => !IntentRouter.validate_plan plan

/-- The search-plan targets the retrieval loop of
`Orchestrator.process` dispatches on. -/
def retrievableTarget (t : Option String) : Bool :=
  t = some "DOC" || t = some "WORKFLOW" || t = some "RESULT"

/-- Projection of an engine reply: `from_cache`, or `none` on error. -/
def respFromCache : Except String WorkflowEngine.ExecResp → Option Bool
  | Except.ok r => some r.from_cache
  | Except.error _ => none

/-- Projection of an engine reply: `run_id`, or `none` on error. -/
def respRunId : Except String WorkflowEngine.ExecResp → Option String
  | Except.ok r => some r.run_id
  | Except.error _ => none

/-- Projection of an engine reply: `status`, or `none` on error. -/
def respStatus : Except String WorkflowEngine.ExecResp → Option String
  | Except.ok r => some r.status
  | Except.error _ => none

/-! Section: Concrete fixtures used by the witnesses and scenario theorems -/

/-- A workflow definition with a single `TOOL` step. -/
def wdefFix : WorkflowEngine.WorkflowDefR :=
  { workflow_id := "wf1", resource_id := "res_wf1",
    workflow_json := { steps := [{ stype := some "TOOL", tool_id := some "toolA" }] },
    timeout_seconds := some 5, ttl_seconds := some 3600 }

/-- A registry holding exactly `wdefFix`. -/
def getWorkflowFix : String → Option String → Option WorkflowEngine.WorkflowDefR :=
  fun wid _ => if wid = "wf1" then some wdefFix else none

/-- First `execute` call of the idempotency scenario. -/
def c1FirstCall : Except String WorkflowEngine.ExecResp × WorkflowEngine.Store :=
  WorkflowEngine.execute getWorkflowFix "run1" 0 3600 "wf1" []
    (some "t1") (some "u1") none {}

/-- Second `execute` call of the idempotency scenario: the same four
arguments `(workflow_id, inputs, tenant_id, user_id)`, no explicit key,
against the state the first call produced. -/
def c1SecondCall : Except String WorkflowEngine.ExecResp × WorkflowEngine.Store :=
  WorkflowEngine.execute getWorkflowFix "run2" 0 3600 "wf1" []
    (some "t1") (some "u1") none c1FirstCall.2

/-- A fresh high-score RESULT candidate (total 0.8, deadline 100). -/
def freshResultCand : Candidate :=
  { resource_id := "res1", resource_type := RType.RESULT,
    scores := { total := qv 4 5 }, metadata := { fresh_until := some 100 } }

/-- A mid-score DOC candidate that triggers no hard rule. -/
def docCand : Candidate :=
  { resource_id := "doc1", resource_type := RType.DOC,
    scores := { total := qv 1 2 } }

/-- A structurally complete model action whose `selected.resource_id`
is the empty string — falsy in Python, so `_validate_action` skips the
membership guard. -/
def emptyIdRaw : Decider.RawAction :=
  { action_type := some AType.RETURN_RESULT,
    selected := some { resource_id := some "", resource_type := none, confidence := 0 },
    reason := some {}, execution := some {}, clarify := some {} }

/-- A workflow brief hit used by the tenant-isolation witness. -/
def wfBriefFix : BriefCand := { resource_id := some "w1", score := qv 1 2 }

/-- The resource behind `wfBriefFix`, owned by tenant `t1`. -/
def wfResourceFix : Resource :=
  { id := "w1", tenant_id := some "t1", title := "Reset", status := "active" }

/-- A registry holding exactly `wfResourceFix`. -/
def wfLookupFix : String → Option Resource :=
  fun rid => if rid = "w1" then some wfResourceFix else none

/-! Section: Helper lemmas: the Python string order -/

theorem clLt_asymm : ∀ (a b : List Char), clLt a b = true → clLt b a = true → False := by
  intro a
  induction a with
  | nil => intro b h h'; cases b <;> simp [clLt] at h h'
  | cons x xs ih =>
    intro b h h'
    cases b with
    | nil => simp [clLt] at h
    | cons y ys =>
      simp only [clLt] at h h'
      split_ifs at h h' with h1 h2 h3 h4 <;> try omega
      · exact ih ys h h'
      all_goals simp_all

theorem clLt_conn : ∀ (a b : List Char), clLt a b = false → clLt b a = false → a = b := by
  intro a
  induction a with
  | nil => intro b h h'; cases b <;> simp [clLt] at h h' ⊢
  | cons x xs ih =>
    intro b h h'
    cases b with
    | nil => simp [clLt] at h'
    | cons y ys =>
      simp only [clLt] at h h'
      split_ifs at h h' with h1 h2 h3 h4 <;> try omega
      · have hn : x.toNat = y.toNat := by omega
        have hxy : x = y := Char.ext (UInt32.ext (by simpa [Char.toNat] using hn))
        rw [hxy, ih ys h h']
      all_goals simp_all

theorem clLt_trans : ∀ (a b c : List Char),
    clLt a b = true → clLt b c = true → clLt a c = true := by
  intro a
  induction a with
  | nil =>
    intro b c h h'
    cases b with
    | nil => simp [clLt] at h
    | cons y ys =>
      cases c with
      | nil => simp [clLt] at h'
      | cons z zs => simp [clLt]
  | cons x xs ih =>
    intro b c h h'
    cases b with
    | nil => simp [clLt] at h
    | cons y ys =>
      cases c with
      | nil => simp [clLt] at h'
      | cons z zs =>
        simp only [clLt] at h h' ⊢
        split_ifs at h h' ⊢ with h1 h2 h3 h4 h5 h6 <;> try omega
        all_goals first
          | rfl
          | (exact ih ys zs h h')
          | simp_all
          | omega

theorem strLeB_total (a b : String) : strLeB a b = true ∨ strLeB b a = true := by
  unfold strLeB strLtB
  rcases h1 : clLt b.data a.data with _ | _ <;> rcases h2 : clLt a.data b.data with _ | _ <;>
    simp_all
  exact clLt_asymm _ _ h2 h1

theorem strLeB_trans (a b c : String) (h1 : strLeB a b = true) (h2 : strLeB b c = true) :
    strLeB a c = true := by
  unfold strLeB strLtB at h1 h2 ⊢
  simp only [Bool.not_eq_true'] at h1 h2 ⊢
  rcases h3 : clLt c.data a.data with _ | _
  · rfl
  · rcases h4 : clLt b.data c.data with _ | _
    · have hbc : b.data = c.data := clLt_conn _ _ h4 h2
      rw [← hbc] at h3
      rw [h3] at h1
      exact nomatch h1
    · have h5 := clLt_trans _ _ _ h4 h3
      rw [h5] at h1
      exact nomatch h1

theorem strLeB_ne_lt (a b : String) (h : strLeB a b = true) (hne : a ≠ b) :
    strLtB a b = true := by
  unfold strLeB at h
  unfold strLtB at h ⊢
  simp only [Bool.not_eq_true'] at h
  rcases h2 : clLt a.data b.data with _ | _
  · exact absurd (String.ext (clLt_conn _ _ h2 h)) hne
  · rfl

/-! Section: Helper lemmas: the canonical JSON serializer -/

theorem dumps_obj (fields : JObj) :
    dumps (JValue.obj fields) =
      "\x7b" ++ joinComma ((List.insertionSort keyLe (dumpsFields fields)).map
        (fun p => dumpString p.1 ++ ": " ++ p.2)) ++ "\x7d" := rfl

theorem dumpsFields_eq_map (l : JObj) :
    dumpsFields l = l.map (fun kv => (kv.1, dumps kv.2)) := by
  induction l with
  | nil => rfl
  | cons kv rest ih => cases kv; simp [dumpsFields, ih]

/-- Permutations of an object's fields with no duplicate key serialize
identically under `sort_keys=True`: the rendered fields of both sides are
permutations of each other, both end up sorted by the (here strict,
thanks to key distinctness) Python string order, and sorted permutations
coincide. -/
theorem dumps_obj_eq_of_perm {m1 m2 : JObj} (hp : m1.Perm m2)
    (hnd : (m1.map Prod.fst).Nodup) : dumps (JValue.obj m1) = dumps (JValue.obj m2) := by
  haveI : IsTotal (String × String) keyLe :=
    ⟨fun p q => (strLeB_total p.1 q.1).imp id id⟩
  haveI : IsTrans (String × String) keyLe :=
    ⟨fun _ _ _ h1 h2 => strLeB_trans _ _ _ h1 h2⟩
  rw [dumps_obj, dumps_obj]
  suffices hs : List.insertionSort keyLe (dumpsFields m1) =
      List.insertionSort keyLe (dumpsFields m2) by rw [hs]
  set s1 := List.insertionSort keyLe (dumpsFields m1) with hs1
  set s2 := List.insertionSort keyLe (dumpsFields m2) with hs2
  have hrperm : (dumpsFields m1).Perm (dumpsFields m2) := by
    rw [dumpsFields_eq_map, dumpsFields_eq_map]; exact hp.map _
  have hperm12 : s1.Perm s2 :=
    ((List.perm_insertionSort keyLe (dumpsFields m1)).trans hrperm).trans
      (List.perm_insertionSort keyLe (dumpsFields m2)).symm
  have hkeys1 : ((dumpsFields m1).map Prod.fst).Nodup := by
    rw [dumpsFields_eq_map, List.map_map]
    exact hnd
  have hnodup1 : (s1.map Prod.fst).Nodup :=
    hkeys1.perm ((List.perm_insertionSort keyLe (dumpsFields m1)).map Prod.fst).symm
  have hnodup2 : (s2.map Prod.fst).Nodup :=
    hnodup1.perm (hperm12.map Prod.fst)
  have hSorted1 : s1.Pairwise keyLe := List.sorted_insertionSort keyLe (dumpsFields m1)
  have hSorted2 : s2.Pairwise keyLe := List.sorted_insertionSort keyLe (dumpsFields m2)
  have hne1 : s1.Pairwise (fun p q : String × String => p.1 ≠ q.1) :=
    List.pairwise_map.mp hnodup1
  have hne2 : s2.Pairwise (fun p q : String × String => p.1 ≠ q.1) :=
    List.pairwise_map.mp hnodup2
  have hlt1 : s1.Pairwise (fun p q : String × String => strLtB p.1 q.1 = true) :=
    (hSorted1.and hne1).imp (fun h => strLeB_ne_lt _ _ h.1 h.2)
  have hlt2 : s2.Pairwise (fun p q : String × String => strLtB p.1 q.1 = true) :=
    (hSorted2.and hne2).imp (fun h => strLeB_ne_lt _ _ h.1 h.2)
  haveI : IsAntisymm (String × String) (fun p q => strLtB p.1 q.1 = true) :=
    ⟨fun _ _ h1 h2 => (clLt_asymm _ _ h1 h2).elim⟩
  exact List.eq_of_perm_of_sorted hperm12 hlt1 hlt2

/-! Section: C6: idempotency-key canonicalization -/

/-- C6: for every workflow id, tenant and user, two `inputs` dicts that
are equal as key-value maps (same pairs, possibly different key order,
keys unique as in a Python dict) produce the same idempotency key in
`WorkflowEngine._generate_idempotency_key`, and that key is the SHA-256
hex digest of the canonical sorted-key JSON serialization of
`{workflow_id, inputs, tenant_id, user_id}`. -/
theorem c6_idempotency_key_order_independence (wf : String) (m1 m2 : JObj)
    (t u : Option String) (hperm : m1.Perm m2) (hnd : (m1.map Prod.fst).Nodup) :
    WorkflowEngine.generate_idempotency_key wf m1 t u =
      WorkflowEngine.generate_idempotency_key wf m2 t u ∧
    WorkflowEngine.generate_idempotency_key wf m1 t u =
      sha256Hex (utf8Bytes (dumps (WorkflowEngine.keyPayload wf m1 t u))) := by
  refine ⟨?_, rfl⟩
  have h : dumps (JValue.obj m1) = dumps (JValue.obj m2) :=
    dumps_obj_eq_of_perm hperm hnd
  unfold WorkflowEngine.generate_idempotency_key WorkflowEngine.keyPayload
  have h2 : dumps (JValue.obj
      [("workflow_id", JValue.str wf), ("inputs", JValue.obj m1),
       ("tenant_id", optStr t), ("user_id", optStr u)]) =
    dumps (JValue.obj
      [("workflow_id", JValue.str wf), ("inputs", JValue.obj m2),
       ("tenant_id", optStr t), ("user_id", optStr u)]) := by
    rw [dumps_obj, dumps_obj]
    have h3 : dumpsFields
        [("workflow_id", JValue.str wf), ("inputs", JValue.obj m1),
         ("tenant_id", optStr t), ("user_id", optStr u)] =
      dumpsFields
        [("workflow_id", JValue.str wf), ("inputs", JValue.obj m2),
         ("tenant_id", optStr t), ("user_id", optStr u)] := by
      simp only [dumpsFields]
      rw [h]
    rw [h3]
  rw [h2]

/-- Witness for C6 at the spec's own example: `{"a":1,"b":2}` versus
`{"b":2,"a":1}`. -/
theorem c6_idempotency_key_order_independence_witness :
    (([("a", JValue.num 1), ("b", JValue.num 2)] : JObj).Perm
        [("b", JValue.num 2), ("a", JValue.num 1)]) ∧
    (([("a", JValue.num 1), ("b", JValue.num 2)] : JObj).map Prod.fst).Nodup ∧
    WorkflowEngine.generate_idempotency_key "wf"
        [("a", JValue.num 1), ("b", JValue.num 2)] none none =
      WorkflowEngine.generate_idempotency_key "wf"
        [("b", JValue.num 2), ("a", JValue.num 1)] none none :=
  ⟨List.Perm.swap _ _ _, by decide,
    (c6_idempotency_key_order_independence "wf" _ _ none none
      (List.Perm.swap _ _ _) (by decide)).1⟩

/-! Section: C2: the fresh-RESULT hard rule bypasses the model -/

/-- C2: whenever the candidate pool contains a RESULT candidate with
`total ≥ 0.7` and a freshness deadline strictly in the future,
`Decider.decide` returns `RETURN_RESULT` selecting the first such
candidate in input order (the `find?` hypothesis is exactly "`c` is the
first candidate satisfying hard rule 1"), and the decision does not
depend on the model oracle — the model-backed path is never consulted. -/
theorem c2_fresh_result_hard_rule (now : Int) (candidates : List Candidate)
    (oracle oracle' : List Decider.ModelTry) (c : Candidate)
    (hfind : candidates.find? (Decider.freshResultB now) = some c) :
    Decider.decide now candidates oracle = Decider.freshResultAction c ∧
    (Decider.freshResultAction c).action_type = some AType.RETURN_RESULT ∧
    (Decider.freshResultAction c).selected =
      some { resource_id := some c.resource_id,
             resource_type := some RType.RESULT,
             confidence := c.scores.total } ∧
    Decider.decide now candidates oracle = Decider.decide now candidates oracle' := by
  unfold Decider.decide Decider.apply_hard_rules
  rw [hfind]
  exact ⟨rfl, rfl, rfl, rfl⟩

/-- Witness for C2: a single fresh RESULT candidate with total 0.8 and
deadline 100, decided at time 0 with an empty oracle. -/
theorem c2_fresh_result_hard_rule_witness :
    ([freshResultCand].find? (Decider.freshResultB 0) = some freshResultCand) ∧
    Decider.decide 0 [freshResultCand] [] = Decider.freshResultAction freshResultCand :=
  ⟨by decide,
   (c2_fresh_result_hard_rule 0 [freshResultCand] [] [] freshResultCand (by decide)).1⟩

/-! Section: Helper lemmas: Python `max(..., key=total)` -/

theorem pyMax_cons (c0 c : Candidate) (rest : List Candidate) :
    Decider.pyMaxByTotal c0 (c :: rest) =
      Decider.pyMaxByTotal (if c0.scores.total < c.scores.total then c else c0) rest := rfl

theorem pyMax_mem (c0 : Candidate) (rest : List Candidate) :
    Decider.pyMaxByTotal c0 rest ∈ c0 :: rest := by
  induction rest generalizing c0 with
  | nil => simp [Decider.pyMaxByTotal]
  | cons c rest ih =>
    rw [pyMax_cons]
    rcases List.mem_cons.mp (ih (if c0.scores.total < c.scores.total then c else c0)) with h | h
    · rw [h]
      split_ifs <;> simp
    · exact List.mem_cons_of_mem _ (List.mem_cons_of_mem _ h)

theorem pyMax_ge (c0 : Candidate) (rest : List Candidate) :
    ∀ d ∈ c0 :: rest, d.scores.total ≤ (Decider.pyMaxByTotal c0 rest).scores.total := by
  induction rest generalizing c0 with
  | nil =>
    intro d hd
    rcases List.mem_cons.mp hd with h | h
    · rw [h]; simp [Decider.pyMaxByTotal]
    · simp at h
  | cons c rest ih =>
    intro d hd
    rw [pyMax_cons]
    have hhead := ih (if c0.scores.total < c.scores.total then c else c0) _
      (List.mem_cons_self _ _)
    have hs0 : c0.scores.total ≤
        (if c0.scores.total < c.scores.total then c else c0).scores.total := by
      split_ifs with hcc
      · exact le_of_lt hcc
      · exact le_refl _
    have hsc : c.scores.total ≤
        (if c0.scores.total < c.scores.total then c else c0).scores.total := by
      split_ifs with hcc
      · exact le_refl _
      · exact le_of_not_lt hcc
    rcases List.mem_cons.mp hd with h | h
    · rw [h]; exact le_trans hs0 hhead
    · rcases List.mem_cons.mp h with h2 | h2
      · rw [h2]; exact le_trans hsc hhead
      · exact ih _ d (List.mem_cons_of_mem _ h2)

theorem find?_congr_mem {α : Type u} {p q : α → Bool} :
    ∀ {l : List α}, (∀ x ∈ l, p x = q x) → l.find? p = l.find? q := by
  intro l
  induction l with
  | nil => intro _; rfl
  | cons x xs ih =>
    intro h
    have hx := h x (List.mem_cons_self _ _)
    rcases hq : q x with _ | _
    · rw [List.find?_cons_of_neg _ (by rw [hx, hq]; exact Bool.false_ne_true),
          List.find?_cons_of_neg _ (by rw [hq]; exact Bool.false_ne_true)]
      exact ih (fun y hy => h y (List.mem_cons_of_mem _ hy))
    · rw [List.find?_cons_of_pos _ (by rw [hx, hq]),
          List.find?_cons_of_pos _ hq]

/-- Python `max` keeps the earliest element attaining the maximum: the
fallback's pick is the first list element whose total is greater than or
equal to every total in the pool. -/
theorem pyMax_first (c0 : Candidate) (rest : List Candidate) :
    (c0 :: rest).find?
        (fun c => (c0 :: rest).all (fun d => d.scores.total ≤ c.scores.total)) =
      some (Decider.pyMaxByTotal c0 rest) := by
  induction rest generalizing c0 with
  | nil => simp [Decider.pyMaxByTotal]
  | cons c rest ih =>
    rw [pyMax_cons]
    by_cases hc : c0.scores.total < c.scores.total
    · -- the arriving element strictly wins
      rw [if_pos hc]
      have hcong : ∀ x : Candidate,
          ((c0 :: c :: rest).all (fun d => d.scores.total ≤ x.scores.total)) =
          ((c :: rest).all (fun d => d.scores.total ≤ x.scores.total)) := by
        intro x
        rcases hq : ((c :: rest).all
            (fun d => d.scores.total ≤ x.scores.total)) with _ | _
        · apply List.all_eq_false.mpr
          rcases List.all_eq_false.mp hq with ⟨d, hd, hdf⟩
          exact ⟨d, List.mem_cons_of_mem _ hd, hdf⟩
        · apply List.all_eq_true.mpr
          intro d hd
          have hcx : c.scores.total ≤ x.scores.total :=
            of_decide_eq_true (List.all_eq_true.mp hq c (List.mem_cons_self _ _))
          rcases List.mem_cons.mp hd with h | h
          · rw [h]; exact decide_eq_true (le_trans (le_of_lt hc) hcx)
          · exact List.all_eq_true.mp hq d h
      have hP0 : ((c0 :: c :: rest).all
          (fun d => d.scores.total ≤ c0.scores.total)) = false := by
        apply List.all_eq_false.mpr
        refine ⟨c, by simp, ?_⟩
        simpa using not_le.mpr hc
      rw [List.find?_cons_of_neg _ (by rw [hP0]; exact Bool.false_ne_true)]
      rw [find?_congr_mem (fun x _ => hcong x)]
      exact ih c
    · -- the accumulator survives the tie or win
      rw [if_neg hc]
      have hcle : c.scores.total ≤ c0.scores.total := le_of_not_lt hc
      have ihc := ih c0
      have hcong : ∀ x : Candidate,
          ((c0 :: c :: rest).all (fun d => d.scores.total ≤ x.scores.total)) =
          ((c0 :: rest).all (fun d => d.scores.total ≤ x.scores.total)) := by
        intro x
        rcases hq : ((c0 :: rest).all
            (fun d => d.scores.total ≤ x.scores.total)) with _ | _
        · apply List.all_eq_false.mpr
          rcases List.all_eq_false.mp hq with ⟨d, hd, hdf⟩
          refine ⟨d, ?_, hdf⟩
          rcases List.mem_cons.mp hd with h | h
          · rw [h]; exact List.mem_cons_self _ _
          · exact List.mem_cons_of_mem _ (List.mem_cons_of_mem _ h)
        · apply List.all_eq_true.mpr
          intro d hd
          have h0x : c0.scores.total ≤ x.scores.total :=
            of_decide_eq_true (List.all_eq_true.mp hq c0 (List.mem_cons_self _ _))
          rcases List.mem_cons.mp hd with h | h
          · rw [h]; exact decide_eq_true h0x
          · rcases List.mem_cons.mp h with h2 | h2
            · rw [h2]; exact decide_eq_true (le_trans hcle h0x)
            · exact List.all_eq_true.mp hq d (List.mem_cons_of_mem _ h2)
      rcases hq0 : ((c0 :: rest).all
          (fun d => d.scores.total ≤ c0.scores.total)) with _ | _
      · -- the head fails the predicate in both lists
        rw [List.find?_cons_of_neg _ (by rw [hcong c0, hq0]; exact Bool.false_ne_true)]
        rw [@List.find?_cons_of_neg Candidate
          (fun x => (c0 :: rest).all (fun d => decide (d.scores.total ≤ x.scores.total)))
          c0 rest (by simp only [hq0]; exact Bool.false_ne_true)] at ihc
        -- the second head `c` fails as well: it is below `c0`
        have hPc : ((c0 :: c :: rest).all
            (fun d => d.scores.total ≤ c.scores.total)) = false := by
          apply List.all_eq_false.mpr
          rcases List.all_eq_false.mp hq0 with ⟨d, hd, hdf⟩
          refine ⟨d, ?_, ?_⟩
          · rcases List.mem_cons.mp hd with h | h
            · rw [h]; exact List.mem_cons_self _ _
            · exact List.mem_cons_of_mem _ (List.mem_cons_of_mem _ h)
          · intro hdec
            exact hdf (decide_eq_true (le_trans (of_decide_eq_true hdec) hcle))
        rw [List.find?_cons_of_neg _ (by rw [hPc]; exact Bool.false_ne_true)]
        rw [find?_congr_mem (fun x _ => hcong x)]
        exact ihc
      · -- the head satisfies the predicate in both lists
        rw [List.find?_cons_of_pos _ (by rw [hcong c0, hq0])]
        rw [@List.find?_cons_of_pos Candidate
          (fun x => (c0 :: rest).all (fun d => decide (d.scores.total ≤ x.scores.total)))
          c0 rest hq0] at ihc
        exact ihc

/-! Section: C3: the injection guard and the deterministic fallback -/

/-- Counterexample to C3 as stated: a structurally complete model reply
whose `selected.resource_id` is the empty string passes
`_validate_action` (Python truthiness skips the membership guard) and is
returned by the model-backed path as-is, although `""` is neither null
nor the `resource_id` of any supplied candidate. -/
theorem c3_injection_guard_counterexample :
    Decider.llm_decide [docCand] [Except.ok emptyIdRaw] = emptyIdRaw ∧
    Decider.decide 0 [docCand] [Except.ok emptyIdRaw] = emptyIdRaw ∧
    emptyIdRaw.selected.bind (fun s => s.resource_id) = some "" ∧
    some "" ≠ (none : Option String) ∧
    ([docCand].map (fun c => c.resource_id)).contains "" = false := by
  refine ⟨by decide, by decide, rfl, by decide, by decide⟩

/-- C3 amended: every action produced by the model-backed path has a
selected resource id that is null, **the empty string**, or the id of a
supplied candidate; and when every attempt fails validation, the path
returns the deterministic fallback — `FALLBACK` with null selection on
an empty pool, otherwise `RETURN_RESULT` selecting the highest-total
candidate with ties broken by list order (`pyMaxByTotal` is the first
list element whose total dominates the pool). -/
theorem c3_injection_guard_amended (candidates : List Candidate)
    (oracle foracle : List Decider.ModelTry) (c0 : Candidate) (rest : List Candidate)
    (hfail : foracle.all (attemptFails candidates) = true) :
    guardOk candidates (Decider.llm_decide candidates oracle) = true ∧
    Decider.llm_decide candidates foracle = Decider.fallback_decision candidates ∧
    Decider.fallback_decision [] =
      Decider.mkAction AType.FALLBACK
        { resource_id := none, resource_type := none, confidence := 0 } ["无候选资源"] ∧
    ((c0 :: rest).find?
        (fun c => (c0 :: rest).all (fun d => d.scores.total ≤ c.scores.total)) =
      some (Decider.pyMaxByTotal c0 rest)) ∧
    Decider.fallback_decision (c0 :: rest) =
      Decider.mkAction AType.RETURN_RESULT
        { resource_id := some (Decider.pyMaxByTotal c0 rest).resource_id,
          resource_type := some (Decider.pyMaxByTotal c0 rest).resource_type,
          confidence := (Decider.pyMaxByTotal c0 rest).scores.total } ["分数最高"] := by
  refine ⟨?_, ?_, rfl, pyMax_first c0 rest, rfl⟩
  · -- the guard, for an arbitrary oracle
    induction oracle with
    | nil =>
      show guardOk candidates (Decider.fallback_decision candidates) = true
      cases candidates with
      | nil => rfl
      | cons d0 drest =>
        show guardOk (d0 :: drest)
          (Decider.mkAction AType.RETURN_RESULT
            { resource_id := some (Decider.pyMaxByTotal d0 drest).resource_id,
              resource_type := some (Decider.pyMaxByTotal d0 drest).resource_type,
              confidence := (Decider.pyMaxByTotal d0 drest).scores.total } ["分数最高"]) = true
        unfold guardOk
        simp only [Decider.mkAction, Option.bind]
        simp [List.contains]
        rcases List.mem_cons.mp (pyMax_mem d0 drest) with h | h
        · exact Or.inr (Or.inl (congrArg Candidate.resource_id h))
        · exact Or.inr (Or.inr ⟨_, h, rfl⟩)
    | cons t rest2 ih =>
      cases t with
      | error e =>
        show guardOk candidates (Decider.llm_decide candidates rest2) = true
        exact ih
      | ok action =>
        show guardOk candidates
          (if Decider.validate_action action candidates then action
           else Decider.llm_decide candidates rest2) = true
        by_cases hv : Decider.validate_action action candidates = true
        · rw [if_pos hv]
          unfold Decider.validate_action at hv
          simp only [Bool.and_eq_true] at hv
          have hguard := hv.2
          unfold guardOk
          rcases hsid : action.selected.bind (fun s => s.resource_id) with _ | s
          · rfl
          · rw [hsid] at hguard
            by_cases hse : s = ""
            · simp [hse]
            · have hst : strTruthy (some s) = true := by
                simp [strTruthy, hse]
              rw [hst, if_pos rfl] at hguard
              simp only [Option.getD] at hguard
              have hmem2 : s ∈ candidates.map (fun x => x.resource_id) :=
                List.mem_of_elem_eq_true hguard
              simp [guardOk, hsid]
              rcases List.mem_map.mp hmem2 with ⟨a, ha, haeq⟩
              exact Or.inr ⟨a, ha, haeq⟩
        · rw [if_neg hv]
          exact ih
  · -- exhausted attempts degrade to the fallback
    induction foracle with
    | nil => rfl
    | cons t rest2 ih =>
      rw [List.all_cons, Bool.and_eq_true] at hfail
      cases t with
      | error e => exact ih hfail.2
      | ok action =>
        show (if Decider.validate_action action candidates then action
          else Decider.llm_decide candidates rest2) = Decider.fallback_decision candidates
        have hf : Decider.validate_action action candidates = false := by
          have := hfail.1
          unfold attemptFails at this
          simpa using this
        rw [hf]
        simp only [if_neg (by simp : ¬ (false = true))]
        exact ih hfail.2

/-- Witness for C3 at concrete inputs: a pool with one DOC candidate,
an oracle answering the empty-string action, and an oracle whose two
attempts are an exception and a structurally incomplete action. -/
theorem c3_injection_guard_amended_witness :
    ([Except.error (), Except.ok ({} : Decider.RawAction)].all
        (attemptFails [docCand]) = true) ∧
    guardOk [docCand] (Decider.llm_decide [docCand] [Except.ok emptyIdRaw]) = true ∧
    Decider.llm_decide [docCand] [Except.error (), Except.ok ({} : Decider.RawAction)] =
      Decider.fallback_decision [docCand] :=
  ⟨by decide,
   (c3_injection_guard_amended [docCand] [Except.ok emptyIdRaw]
     [Except.error (), Except.ok ({} : Decider.RawAction)] docCand [] (by decide)).1,
   (c3_injection_guard_amended [docCand] [Except.ok emptyIdRaw]
     [Except.error (), Except.ok ({} : Decider.RawAction)] docCand [] (by decide)).2.1⟩

/-! Section: C7: the router's deterministic default plan -/

/-- C7: when every classification attempt fails (malformed or missing
output, at most 2 attempts), `IntentRouter.route` returns the
deterministic default plan; that plan carries intent `OTHER` at
confidence 0.5, exactly the `DOC` and `RESULT` entries with the raw
message as query, `top_k = 10`, empty tag filter and status filter
`["active"]`, the `best_fit` decision goal with ranking rules
`[correctness, freshness, coverage]`, the citation/no-fabrication
constraints with output format `steps` — and it passes the router's own
validator. -/
theorem c7_router_default_plan (user_message : String)
    (oracle : List IntentRouter.RouteTry)
    (hfail : oracle.all routeAttemptFails = true) :
    IntentRouter.route user_message oracle = IntentRouter.default_plan user_message ∧
    IntentRouter.validate_plan (IntentRouter.default_plan user_message) = true ∧
    (IntentRouter.default_plan user_message).intent =
      some { name := some "OTHER", confidence := qv 1 2, entities := [] } ∧
    (IntentRouter.default_plan user_message).search_plan = some (Except.ok
      [{ target := some "DOC", query := some user_message,
         filters := { tags := [], resource_status := ["active"],
                      freshness_required := false }, top_k := 10 },
       { target := some "RESULT", query := some user_message,
         filters := { tags := [], resource_status := ["active"],
                      freshness_required := false }, top_k := 10 }]) ∧
    (IntentRouter.default_plan user_message).decision_goal =
      some { primary := "best_fit",
             ranking_rules := ["correctness", "freshness", "coverage"],
             must_return_single := true } ∧
    (IntentRouter.default_plan user_message).constraints =
      some { need_citations := true, no_fabrication := true,
             output_format := "steps" } := by
  refine ⟨?_, rfl, rfl, rfl, rfl, rfl⟩
  induction oracle with
  | nil => rfl
  | cons t rest ih =>
    rw [List.all_cons, Bool.and_eq_true] at hfail
    cases t with
    | error e => exact ih hfail.2
    | ok plan =>
      show (if IntentRouter.validate_plan plan then plan
        else IntentRouter.route user_message rest) =
        IntentRouter.default_plan user_message
      have hf : IntentRouter.validate_plan plan = false := by
        have := hfail.1
        unfold routeAttemptFails at this
        simpa using this
      rw [hf]
      simp only [if_neg (by simp : ¬ (false = true))]
      exact ih hfail.2

/-- Witness for C7: both attempts fail (an exception, then a reply with
every required field missing). -/
theorem c7_router_default_plan_witness :
    (([Except.error (), Except.ok ({} : IntentRouter.RawPlan)] :
        List IntentRouter.RouteTry).all routeAttemptFails = true) ∧
    IntentRouter.route "如何重置密码？"
        [Except.error (), Except.ok ({} : IntentRouter.RawPlan)] =
      IntentRouter.default_plan "如何重置密码？" :=
  ⟨by decide,
   (c7_router_default_plan "如何重置密码？"
     [Except.error (), Except.ok ({} : IntentRouter.RawPlan)] (by decide)).1⟩

/-! Section: C9: the orchestrator's exception boundary leaks `str(e)` -/

/-- C9 (divergence witness): when an exception escapes the pipeline,
`Orchestrator.process` does answer with the fixed generic message — but
the payload it returns to the caller carries the exception's message
text in `meta.error` (the chat API forwards `meta` verbatim), so
internal error detail IS present in the payload.  Evaluated at the
failing input `e = "boom"`. -/
theorem c9_error_detail_in_payload (session_id : Option String) (trace_id e : String) :
    (Orchestrator.respond session_id trace_id (Except.error e)).answer =
      "处理时发生错误，请稍后重试。" ∧
    (Orchestrator.respond session_id trace_id (Except.error e)).meta.error = some e ∧
    (Orchestrator.respond none "trace" (Except.error "boom")).meta.error = some "boom" ∧
    (Orchestrator.respond none "trace" (Except.error "boom")).meta.error ≠ none :=
  ⟨rfl, rfl, rfl, by decide⟩

/-! Section: C10: non-retrievable search-plan targets are silently skipped -/

/-- C10: a search-plan entry whose target is none of `DOC`, `WORKFLOW`,
`RESULT` (for example `STRUCTURED`, which `process` advertises to the
router) invokes no retriever, contributes no candidates and records no
invocation: the loop step is the identity on the accumulator, and the
whole loop behaves as if the entry were absent. -/
theorem c10_non_retrievable_target_skipped
    (docR wfR resR : String → IntentRouter.Filters → Int → List Candidate)
    (user_message : String) (item : IntentRouter.SearchItem)
    (pre post : List IntentRouter.SearchItem)
    (acc : List Candidate × List Orchestrator.RetCall)
    (hitem : retrievableTarget item.target = false) :
    Orchestrator.planStep docR wfR resR user_message acc item = acc ∧
    Orchestrator.runPlan docR wfR resR user_message (pre ++ item :: post) =
      Orchestrator.runPlan docR wfR resR user_message (pre ++ post) := by
  have hstep : ∀ a, Orchestrator.planStep docR wfR resR user_message a item = a := by
    intro a
    unfold retrievableTarget at hitem
    simp only [Bool.or_eq_false_iff] at hitem
    unfold Orchestrator.planStep
    rcases ht : item.target with _ | s
    · rfl
    · rw [ht] at hitem
      have h1 : ¬ s = "DOC" := by
        intro h; rw [h] at hitem; simp at hitem
      have h2 : ¬ s = "WORKFLOW" := by
        intro h; rw [h] at hitem; simp at hitem
      have h3 : ¬ s = "RESULT" := by
        intro h; rw [h] at hitem; simp at hitem
      split
      · simp_all
      · simp_all
      · simp_all
      · rfl
  refine ⟨hstep acc, ?_⟩
  unfold Orchestrator.runPlan
  rw [List.foldl_append, List.foldl_append, List.foldl_cons, hstep]

/-- Witness for C10: a `STRUCTURED` entry between a `DOC` entry and a
`RESULT` entry changes nothing. -/
theorem c10_non_retrievable_target_skipped_witness :
    retrievableTarget (some "STRUCTURED") = false ∧
    Orchestrator.runPlan (fun _ _ _ => [docCand]) (fun _ _ _ => [])
        (fun _ _ _ => [freshResultCand]) "msg"
        [{ target := some "DOC" }, { target := some "STRUCTURED" },
         { target := some "RESULT" }] =
      Orchestrator.runPlan (fun _ _ _ => [docCand]) (fun _ _ _ => [])
        (fun _ _ _ => [freshResultCand]) "msg"
        [{ target := some "DOC" }, { target := some "RESULT" }] :=
  ⟨by decide,
   (c10_non_retrievable_target_skipped (fun _ _ _ => [docCand]) (fun _ _ _ => [])
     (fun _ _ _ => [freshResultCand]) "msg" { target := some "STRUCTURED" }
     [{ target := some "DOC" }] [{ target := some "RESULT" }] ([], [])
     (by decide)).2⟩

/-! Section: C1: no idempotent replay ever happens -/

/-- C1 (divergence witness): `_check_idempotency` is a stub returning
`None`, so `execute` never returns a cached run: every successful reply
has `from_cache = false`, and in the concrete two-call scenario with
identical `(workflow_id, inputs, tenant_id, user_id)` and no explicit
key, the second call gets a fresh `run_id` and the single `TOOL` step is
executed twice across the two calls. -/
theorem c1_no_idempotent_replay :
    (∀ (getWorkflow : String → Option String → Option WorkflowEngine.WorkflowDefR)
        (run_id : String) (now default_ttl : Int) (workflow_id : String) (inputs : JObj)
        (tenant_id user_id idempotency_key : Option String) (st : WorkflowEngine.Store),
      (match (WorkflowEngine.execute getWorkflow run_id now default_ttl workflow_id
          inputs tenant_id user_id idempotency_key st).1 with
        | Except.ok r => r.from_cache = false
        | Except.error _ => True)) ∧
    respFromCache c1FirstCall.1 = some false ∧
    respFromCache c1SecondCall.1 = some false ∧
    respRunId c1FirstCall.1 = some "run1" ∧
    respRunId c1SecondCall.1 = some "run2" ∧
    respStatus c1FirstCall.1 = some "success" ∧
    c1SecondCall.2.toolLog = [some "toolA", some "toolA"] := by
  refine ⟨?_, by decide, by decide, by decide, by decide, by decide, by decide⟩
  intro gW rid now dttl wid inputs t u key st
  unfold WorkflowEngine.execute
  rcases gW wid t with _ | wdef
  · trivial
  · rfl

/-! Section: C5: the timeout bound is never enforced -/

theorem stepsLoop_no_timeout : ∀ (steps : List WorkflowEngine.Step) (i : Nat)
    (outs : JObj) (errs : List WorkflowEngine.ErrRec) (tlog : List (Option String)),
    errs.all (fun e => e.code != "TIMEOUT") = true →
    ((WorkflowEngine.stepsLoop steps i outs errs tlog).2.1).all
      (fun e => e.code != "TIMEOUT") = true := by
  intro steps
  induction steps with
  | nil => intro i outs errs tlog h; exact h
  | cons s rest ih =>
    intro i outs errs tlog h
    unfold WorkflowEngine.stepsLoop
    split
    · exact ih _ _ _ _ h
    · exact ih _ _ _ _ h
    · exact ih _ _ _ _ h
    · exact ih _ _ _ _ h
    · exact ih _ _ _ _ h
    · apply ih
      rw [List.all_append, Bool.and_eq_true]
      exact ⟨h, rfl⟩

/-- C5 (divergence witness): `_execute_steps` accepts the per-workflow
`timeout_seconds` bound but never reads it — the result is identical for
any two bounds, no error with code `TIMEOUT` can ever be recorded, and a
successful `execute` still terminates with one of the three ordinary
terminal statuses (so the violated spec clause is the `TIMEOUT` marking,
not run termination). -/
theorem c5_timeout_not_enforced :
    (∀ (wj : WorkflowEngine.WorkflowJson) (inputs : JObj) (t1 t2 : Int),
        WorkflowEngine.execute_steps wj inputs t1 =
          WorkflowEngine.execute_steps wj inputs t2) ∧
    (∀ (wj : WorkflowEngine.WorkflowJson) (inputs : JObj) (t : Int),
        ((WorkflowEngine.execute_steps wj inputs t).2.1).all
          (fun e => e.code != "TIMEOUT") = true) ∧
    (∀ (getWorkflow : String → Option String → Option WorkflowEngine.WorkflowDefR)
        (run_id : String) (now default_ttl : Int) (workflow_id : String) (inputs : JObj)
        (tenant_id user_id idempotency_key : Option String) (st : WorkflowEngine.Store),
      (match (WorkflowEngine.execute getWorkflow run_id now default_ttl workflow_id
          inputs tenant_id user_id idempotency_key st).1 with
        | Except.ok r => r.status = "success" ∨ r.status = "partial" ∨ r.status = "failed"
        | Except.error _ => True)) := by
  refine ⟨fun _ _ _ _ => rfl, ?_, ?_⟩
  · intro wj inputs t
    exact stepsLoop_no_timeout wj.steps 0 [] [] [] rfl
  · intro gW rid now dttl wid inputs t u key st
    unfold WorkflowEngine.execute
    rcases gW wid t with _ | wdef
    · trivial
    · have hcases : ∀ (b1 b2 : Bool),
          ((if b1 then "success" else if b2 then "partial" else "failed") = "success" ∨
           (if b1 then "success" else if b2 then "partial" else "failed") = "partial" ∨
           (if b1 then "success" else if b2 then "partial" else "failed") = "failed") := by
        intro b1 b2
        rcases b1 with _ | _ <;> rcases b2 with _ | _ <;> simp
      exact hcases _ _

/-! Section: C4: retriever output order, length bound, error propagation -/

theorem doc_merge_sorted (vcs : List VecCand) (kcs : List (VecCand × ℚ)) (top_k : Nat) :
    (DocRetriever.merge_and_score vcs kcs top_k).Pairwise DocRetriever.scoredGe :=
  List.Pairwise.sublist (List.take_sublist _ _)
    (List.sorted_insertionSort DocRetriever.scoredGe _)

theorem doc_merge_len (vcs : List VecCand) (kcs : List (VecCand × ℚ)) (top_k : Nat) :
    (DocRetriever.merge_and_score vcs kcs top_k).length ≤ top_k := by
  unfold DocRetriever.merge_and_score
  rw [List.length_take]
  exact min_le_left _ _

theorem doc_format_pairwise {l : List DocRetriever.Scored}
    (lookup : String → Option Resource) (filters : Option RFilters)
    (h : l.Pairwise DocRetriever.scoredGe) :
    (DocRetriever.format_candidates lookup l filters).Pairwise candGe := by
  unfold DocRetriever.format_candidates
  rw [List.pairwise_filterMap]
  refine h.imp ?_
  intro a b hab x hx y hy
  simp only [Option.mem_def] at hx hy
  have htx : x.scores.total = a.total_score := by
    split at hx
    · exact nomatch hx
    · split at hx
      · cases hx; rfl
      · exact nomatch hx
  have hty : y.scores.total = b.total_score := by
    split at hy
    · exact nomatch hy
    · split at hy
      · cases hy; rfl
      · exact nomatch hy
  show y.scores.total ≤ x.scores.total
  rw [htx, hty]
  exact hab

theorem result_merge_sorted (cands : List ResultRetriever.DBResult) (top_k : Nat) :
    (ResultRetriever.merge_and_score cands top_k).Pairwise ResultRetriever.dbGe :=
  List.Pairwise.sublist (List.take_sublist _ _)
    (List.sorted_insertionSort ResultRetriever.dbGe _)

theorem result_merge_len (cands : List ResultRetriever.DBResult) (top_k : Nat) :
    (ResultRetriever.merge_and_score cands top_k).length ≤ top_k := by
  unfold ResultRetriever.merge_and_score
  rw [List.length_take]
  exact min_le_left _ _

theorem result_format_pairwise {l : List ResultRetriever.DBResult}
    (lookup : String → Option Resource)
    (h : l.Pairwise ResultRetriever.dbGe) :
    (ResultRetriever.format_candidates lookup l).Pairwise candGe := by
  unfold ResultRetriever.format_candidates
  rw [List.pairwise_filterMap]
  refine h.imp ?_
  intro a b hab x hx y hy
  simp only [Option.mem_def] at hx hy
  have htx : x.scores.total = a.total_score := by
    split at hx
    · exact nomatch hx
    · cases hx; rfl
  have hty : y.scores.total = b.total_score := by
    split at hy
    · exact nomatch hy
    · cases hy; rfl
  show y.scores.total ≤ x.scores.total
  rw [htx, hty]
  exact hab

/-- Counterexample to C4 as stated: the retrievers have no exception
handler, so a failing embedding/vector backend propagates out of
`retrieve` instead of yielding an empty candidate list. -/
theorem c4_never_raises_counterexample :
    DocRetriever.retrieve (Except.error "embedding service unavailable")
        (Except.ok []) (fun _ => none) "reset password" none 10 =
      Except.error "embedding service unavailable" ∧
    DocRetriever.retrieve (Except.error "embedding service unavailable")
        (Except.ok []) (fun _ => none) "reset password" none 10 ≠
      Except.ok [] ∧
    ResultRetriever.retrieve (Except.error "vector index unreachable")
        (Except.ok []) (fun _ => none) (fun _ => none) 0 "q" none 10 none =
      Except.error "vector index unreachable" :=
  ⟨rfl, by decide, rfl⟩

/-- C4 amended: when the backends succeed, each retriever returns its
candidates in descending `scores.total` order with at most `top_k`
entries; when the embedding or vector-search backend fails, `retrieve`
propagates the failure (`Except.error`) rather than returning an empty
list — the pipeline-level containment lives at the Orchestrator
boundary, not in the retrievers. -/
theorem c4_retriever_order_length_propagation :
    (∀ (vcs : List VecCand) (lookup : String → Option Resource) (query : String)
        (filters : Option RFilters) (top_k : Nat),
      (okList (DocRetriever.retrieve (Except.ok ()) (Except.ok vcs) lookup query
          filters top_k)).Pairwise candGe ∧
      (okList (DocRetriever.retrieve (Except.ok ()) (Except.ok vcs) lookup query
          filters top_k)).length ≤ top_k) ∧
    (∀ (bcs : List BriefCand) (getResult : String → Option ResultRec)
        (lookup : String → Option Resource) (now : Int) (query : String)
        (filters : Option RFilters) (top_k : Nat) (ctx : Option RContext),
      (okList (ResultRetriever.retrieve (Except.ok ()) (Except.ok bcs) getResult lookup
          now query filters top_k ctx)).Pairwise candGe ∧
      (okList (ResultRetriever.retrieve (Except.ok ()) (Except.ok bcs) getResult lookup
          now query filters top_k ctx)).length ≤ top_k) ∧
    (∀ (e : String) (search : Except String (List VecCand))
        (lookup : String → Option Resource) (query : String)
        (filters : Option RFilters) (top_k : Nat),
      DocRetriever.retrieve (Except.error e) search lookup query filters top_k =
        Except.error e) ∧
    (∀ (e : String) (lookup : String → Option Resource) (query : String)
        (filters : Option RFilters) (top_k : Nat),
      DocRetriever.retrieve (Except.ok ()) (Except.error e) lookup query filters top_k =
        Except.error e) ∧
    (∀ (e : String) (search : Except String (List BriefCand))
        (getResult : String → Option ResultRec) (lookup : String → Option Resource)
        (now : Int) (query : String) (filters : Option RFilters) (top_k : Nat)
        (ctx : Option RContext),
      ResultRetriever.retrieve (Except.error e) search getResult lookup now query
          filters top_k ctx = Except.error e) ∧
    (∀ (e : String) (getResult : String → Option ResultRec)
        (lookup : String → Option Resource) (now : Int) (query : String)
        (filters : Option RFilters) (top_k : Nat) (ctx : Option RContext),
      ResultRetriever.retrieve (Except.ok ()) (Except.error e) getResult lookup now query
          filters top_k ctx = Except.error e) := by
  refine ⟨?_, ?_, fun _ _ _ _ _ _ => rfl, fun _ _ _ _ _ => rfl,
    fun _ _ _ _ _ _ _ _ _ => rfl, fun _ _ _ _ _ _ _ _ => rfl⟩
  · intro vcs lookup query filters top_k
    constructor
    · exact doc_format_pairwise lookup filters
        (doc_merge_sorted vcs (DocRetriever.keyword_search query vcs) top_k)
    · exact le_trans (List.length_filterMap_le _ _)
        (doc_merge_len vcs (DocRetriever.keyword_search query vcs) top_k)
  · intro bcs getResult lookup now query filters top_k ctx
    constructor
    · exact result_format_pairwise lookup
        (result_merge_sorted _ top_k)
    · exact le_trans (List.length_filterMap_le _ _) (result_merge_len _ top_k)

/-! Section: C8: tenant isolation and status exclusion in the workflow retriever -/

theorem foldl_preserve {β : Type u} {γ : Type v} (P : γ → Prop)
    (f : List γ → β → List γ) :
    ∀ (l : List β) (acc : List γ),
      (∀ acc' b, b ∈ l → (∀ x ∈ acc', P x) → ∀ x ∈ f acc' b, P x) →
      (∀ x ∈ acc, P x) → ∀ x ∈ l.foldl f acc, P x := by
  intro l
  induction l with
  | nil =>
    intro acc _ h
    simpa using h
  | cons b rest ih =>
    intro acc hf h
    exact ih _ (fun acc' b' hb' => hf acc' b' (List.mem_cons_of_mem _ hb'))
      (hf acc b (List.mem_cons_self _ _) h)

theorem upsert_preserve {α : Type u} (P : α → Prop) (m : List (String × α))
    (k : String) (v : α) (hm : ∀ kv ∈ m, P kv.2) (hv : P v) :
    ∀ kv ∈ upsert m k v, P kv.2 := by
  intro kv hkv
  unfold upsert at hkv
  split at hkv
  · rcases List.mem_map.mp hkv with ⟨kv0, hkv0, heq⟩
    split at heq
    · rw [← heq]; exact hv
    · rw [← heq]; exact hm kv0 hkv0
  · rcases List.mem_append.mp hkv with h | h
    · exact hm kv h
    · rw [List.mem_singleton.mp h]; exact hv

theorem updateAt_preserve {α : Type u} (P : α → Prop) (m : List (String × α))
    (k : String) (f : α → α) (hm : ∀ kv ∈ m, P kv.2) (hf : ∀ x, P (f x)) :
    ∀ kv ∈ updateAt m k f, P kv.2 := by
  intro kv hkv
  unfold updateAt at hkv
  rcases List.mem_map.mp hkv with ⟨kv0, hkv0, heq⟩
  split at heq
  · rw [← heq]; exact hf kv0.2
  · rw [← heq]; exact hm kv0 hkv0

/-- Provenance of the `resource` field through `_keyword_match`: every
attached resource is a registry lookup result. -/
theorem wf_keyword_match_lookup (query : String) (vcs : List BriefCand)
    (lookup : String → Option Resource)
    (hcoh : ∀ rid r, lookup rid = some r → r.id = rid) :
    ∀ trip ∈ WorkflowRetriever.keyword_match query vcs lookup,
      lookup trip.2.2.id = some trip.2.2 := by
  intro trip htrip
  unfold WorkflowRetriever.keyword_match at htrip
  rcases List.mem_filterMap.mp htrip with ⟨cand, _, hf⟩
  split at hf
  · split at hf
    · exact nomatch hf
    · rename_i resource heq
      cases hf
      show lookup resource.id = some resource
      rw [hcoh _ _ heq]
      exact heq
  · exact nomatch hf

/-- Provenance of the `resource` field through `_merge_and_score`:
every merged entry's attached resource is a registry lookup result. -/
theorem wf_merged_lookup (query : String) (vcs : List BriefCand)
    (lookup : String → Option Resource) (top_k : Nat)
    (hcoh : ∀ rid r, lookup rid = some r → r.id = rid) :
    ∀ m ∈ WorkflowRetriever.merge_and_score vcs
        (WorkflowRetriever.keyword_match query vcs lookup) top_k,
      ∀ r, m.resource = some r → lookup r.id = some r := by
  have htrip := wf_keyword_match_lookup query vcs lookup hcoh
  intro m hm r hr
  unfold WorkflowRetriever.merge_and_score at hm
  have hdict0 : ∀ kv ∈ vcs.foldl
      (fun d c =>
        if strTruthy c.resource_id then
          upsert d (c.resource_id.getD "")
            ({ cand := c, semantic_score := c.score,
               keyword_score := 0 } : WorkflowRetriever.Merged)
        else d) ([] : List (String × WorkflowRetriever.Merged)),
      ∀ r2, kv.2.resource = some r2 → lookup r2.id = some r2 := by
    apply foldl_preserve
      (fun kv : String × WorkflowRetriever.Merged =>
        ∀ r2, kv.2.resource = some r2 → lookup r2.id = some r2) _ vcs []
    · intro acc b _ hacc kv hkv
      split at hkv
      · refine upsert_preserve
          (fun v : WorkflowRetriever.Merged =>
            ∀ r2, v.resource = some r2 → lookup r2.id = some r2)
          acc _ _ hacc ?_ kv hkv
        intro r2 hr2
        exact nomatch hr2
      · exact hacc kv hkv
    · intro x hx
      exact nomatch hx
  have hdict1 : ∀ kv ∈ (WorkflowRetriever.keyword_match query vcs lookup).foldl
      (fun d ckr =>
        if strTruthy ckr.1.resource_id then
          updateAt d (ckr.1.resource_id.getD "")
            (fun m2 => { m2 with keyword_score := ckr.2.1, resource := some ckr.2.2 })
        else d)
      (vcs.foldl
        (fun d c =>
          if strTruthy c.resource_id then
            upsert d (c.resource_id.getD "")
              ({ cand := c, semantic_score := c.score,
                 keyword_score := 0 } : WorkflowRetriever.Merged)
          else d) ([] : List (String × WorkflowRetriever.Merged))),
      ∀ r2, kv.2.resource = some r2 → lookup r2.id = some r2 := by
    apply foldl_preserve
      (fun kv : String × WorkflowRetriever.Merged =>
        ∀ r2, kv.2.resource = some r2 → lookup r2.id = some r2) _ _ _ _ hdict0
    intro acc ckr hckr hacc kv hkv
    split at hkv
    · refine updateAt_preserve
        (fun v : WorkflowRetriever.Merged =>
          ∀ r2, v.resource = some r2 → lookup r2.id = some r2)
        acc _ _ hacc ?_ kv hkv
      intro x r2 hr2
      have h2 : ckr.2.2 = r2 := by
        have := hr2
        simpa using this
      rw [← h2]
      exact htrip ckr hckr
    · exact hacc kv hkv
  -- transport through the total-score map, the sort and the take
  replace hm := (List.take_sublist _ _).subset hm
  replace hm := (List.perm_insertionSort WorkflowRetriever.mergedGe _).mem_iff.mp hm
  rcases List.mem_map.mp hm with ⟨kv, hkv, hmeq⟩
  have hres : kv.2.resource = some r := by
    rw [← hmeq] at hr
    exact hr
  exact hdict1 kv hkv r hres

/-- C8: with a truthy request tenant `t` and a coherent registry (a
looked-up resource's `id` equals the lookup key), every candidate in a
successful `WorkflowRetriever.retrieve` reply is backed by a registry
resource that passes `keepResource` — in particular no resource with a
non-empty `tenant_id` different from `t`, and no `deprecated` or
`disabled` resource, ever appears, regardless of its scores. -/
theorem c8_workflow_tenant_isolation (vcs : List BriefCand)
    (lookup : String → Option Resource) (query : String) (filters : Option RFilters)
    (top_k : Nat) (ctx : RContext) (t : String) (out : List Candidate)
    (hctx : ctx.tenant_id = some t) (ht : t ≠ "")
    (hcoh : ∀ rid r, lookup rid = some r → r.id = rid)
    (hok : WorkflowRetriever.retrieve (Except.ok ()) (Except.ok vcs) lookup query
        filters top_k (some ctx) = Except.ok out) :
    (out.all (fun c =>
      match lookup c.resource_id with
      | some r => WorkflowRetriever.keepResource (some t) filters r
      | none => false) = true) ∧
    (∀ r : Resource, WorkflowRetriever.keepResource (some t) filters r = true →
      ¬ (strTruthy r.tenant_id = true ∧ r.tenant_id ≠ some t) ∧
      r.status ≠ "deprecated" ∧ r.status ≠ "disabled") := by
  constructor
  · have hout : WorkflowRetriever.format_candidates
        (WorkflowRetriever.merge_and_score vcs
          (WorkflowRetriever.keyword_match query vcs lookup) top_k)
        filters ctx.tenant_id = out := Except.ok.inj hok
    rw [hctx] at hout
    apply List.all_eq_true.mpr
    intro c hc
    rw [← hout] at hc
    unfold WorkflowRetriever.format_candidates at hc
    rcases List.mem_filterMap.mp hc with ⟨m, hm, hf⟩
    split at hf
    · exact nomatch hf
    · rename_i resource hres
      split at hf
      · rename_i hkeep
        cases hf
        have hl : lookup resource.id = some resource :=
          wf_merged_lookup query vcs lookup top_k hcoh m hm resource hres
        show (match lookup resource.id with
          | some r => WorkflowRetriever.keepResource (some t) filters r
          | none => false) = true
        rw [hl]
        exact hkeep
      · exact nomatch hf
  · intro r hk
    unfold WorkflowRetriever.keepResource at hk
    rw [Bool.and_eq_true, Bool.and_eq_true] at hk
    obtain ⟨⟨hten, _hstat⟩, hdep⟩ := hk
    refine ⟨?_, ?_, ?_⟩
    · intro hbad
      have hT : strTruthy (some t) = true := by simp [strTruthy, ht]
      have hinner : (strTruthy (some t) && strTruthy r.tenant_id &&
          decide (r.tenant_id ≠ some t)) = true := by
        rw [hT, hbad.1]
        simp [hbad.2]
      rw [hinner] at hten
      exact nomatch hten
    · intro hs
      rw [hs] at hdep
      simp at hdep
    · intro hs
      rw [hs] at hdep
      simp at hdep

/-- Witness for C8: one workflow brief whose resource belongs to the
requesting tenant `t1`; the reply contains it and the check passes. -/
theorem c8_workflow_tenant_isolation_witness :
    (({ tenant_id := some "t1" } : RContext).tenant_id = some "t1") ∧
    (("t1" : String) ≠ "") ∧
    (([{ resource_id := "w1", resource_type := RType.WORKFLOW, title := "Reset",
         snippet := "Reset. ",
         scores := { semantic := qv 1 2, keyword := qv 1 2, freshness := 0,
                     policy := 1, total := qv 13 20 },
         metadata := {} }] : List Candidate).all (fun c =>
      match wfLookupFix c.resource_id with
      | some r => WorkflowRetriever.keepResource (some "t1") none r
      | none => false) = true) :=
  ⟨rfl, by decide,
   (c8_workflow_tenant_isolation [wfBriefFix] wfLookupFix "reset" none 10
     { tenant_id := some "t1" } "t1"
     [{ resource_id := "w1", resource_type := RType.WORKFLOW, title := "Reset",
        snippet := "Reset. ",
        scores := { semantic := qv 1 2, keyword := qv 1 2, freshness := 0,
                    policy := 1, total := qv 13 20 },
        metadata := {} }]
     rfl (by decide)
     (by
       intro rid r h
       unfold wfLookupFix at h
       split at h
       · rename_i hc
         cases h
         exact hc.symm
       · exact nomatch h)
     (by with_unfolding_all decide)).1⟩
